import Mathlib

/-!
Verification development for the smart-traffic-signal repository.

The repository contains two main script variants:
* a continuous gap-based variant (namespace `V1` below): class `Vehicle` with
  per-frame acceleration/deceleration, pairwise gap checks and turning paths;
* a slot-based variant (namespace `TS` below): class `Car` holding a discrete
  slot index per direction, a `Signal` state machine with density-adaptive
  green durations, and a spawner that fills the farthest free slot.

All numeric state is embedded as rationals (JavaScript numbers are used only on
values where exact rational arithmetic reproduces the source computations; the
one divergence — the source produces NaN when a car sits exactly on its target
slot so that `dist = 0` — is noted at the definition site and avoided by every
theorem below).
-/

/-- Compass direction of an approach; order N, E, S, W is the iteration order
used by the signal-selection loops in the source. -/
inductive Dir : Type
  | N | E | S | W
deriving DecidableEq, Repr

/-- Display state of one signal head, as produced by `Signal.state()`. -/
inductive Light : Type
  | RED | GREEN | YELLOW
deriving DecidableEq, Repr

/-- Phase of the active direction's signal (`this.phase` in both variants). -/
inductive Phase : Type
  | green | yellow
deriving DecidableEq, Repr

/-- Index of a direction in the fixed iteration order N, E, S, W. -/
def dirIdx : Dir → ℕ
  | .N => 0 | .E => 1 | .S => 2 | .W => 3

namespace TS

/-! Slot-based variant ("SLOT-BASED NON-OVERLAPPING WEB VERSION" in
script.js).  Constants copied from the source. -/

def FPS : ℚ := 60
def ROAD_WIDTH : ℚ := 180
def CAR_LEN : ℚ := 44
def CAR_WID : ℚ := 24
def STOP_GAP : ℚ := 140
def MAX_CARS : ℕ := 40
def SPAWN_INTERVAL : ℕ := 50
def canvasW : ℚ := 1000
def canvasH : ℚ := 700
def CENTER_X : ℚ := canvasW / 2
def CENTER_Y : ℚ := canvasH / 2
def SLOT_GAP : ℚ := 65
def SLOTS_MAX : ℕ := 8

/-- Stop-line coordinate per direction (`STOP` in the source). -/
def STOP : Dir → ℚ
  | .N => CENTER_Y + STOP_GAP
  | .S => CENTER_Y - STOP_GAP
  | .E => CENTER_X - STOP_GAP
  | .W => CENTER_X + STOP_GAP

/-- Lane center coordinate per direction (`LANE` in the source): an x
coordinate for N/S and a y coordinate for E/W. -/
def LANE : Dir → ℚ
  | .N => CENTER_X - ROAD_WIDTH / 4
  | .S => CENTER_X + ROAD_WIDTH / 4
  | .E => CENTER_Y - ROAD_WIDTH / 4
  | .W => CENTER_Y + ROAD_WIDTH / 4

/-- Travel-axis coordinate of `SLOT_POS[dir][i]`: the y coordinate for N/S
cars and the x coordinate for E/W cars.  The perpendicular coordinate of a
car is fixed by the constructor (`LANE - CAR_WID/2`) and never modified by
the source, so the car state is fully described by this single axis value. -/
def slotAxis (d : Dir) (i : ℕ) : ℚ :=
  match d with
  | .N => STOP .N + ((i : ℚ) + 1) * SLOT_GAP
  | .S => STOP .S - ((i : ℚ) + 1) * SLOT_GAP - CAR_LEN
  | .E => STOP .E - ((i : ℚ) + 1) * SLOT_GAP - CAR_LEN
  | .W => STOP .W + ((i : ℚ) + 1) * SLOT_GAP

/-- State of one car of the slot-based variant (class `Car`).  `pos` is the
coordinate along the travel axis (y for N/S, x for E/W); width, height and
the perpendicular coordinate are derived below exactly as the constructor
sets them. -/
structure Car where
  dir : Dir
  slot : ℕ
  crossed : Bool
  speed : ℚ
  pos : ℚ
deriving DecidableEq, Repr

/-- Constructor `new Car(dir, slot)`: the car starts exactly on its slot
position, not crossed; `speed` is the random draw (source:
`Math.random()*0.5 + 0.8`), taken here as a parameter. -/
def mkCar (d : Dir) (s : ℕ) (speed : ℚ) : Car :=
  { dir := d, slot := s, crossed := false, speed := speed, pos := slotAxis d s }

/-- The x coordinate of the car's rectangle, as set by the constructor and
maintained by the source (constant for N/S cars). -/
def Car.xcoord (c : Car) : ℚ :=
  match c.dir with
  | .N | .S => LANE c.dir - CAR_WID / 2
  | .E | .W => c.pos

/-- The y coordinate of the car's rectangle (constant for E/W cars). -/
def Car.ycoord (c : Car) : ℚ :=
  match c.dir with
  | .N | .S => c.pos
  | .E | .W => LANE c.dir - CAR_WID / 2

/-- Rectangle width: `CAR_WID` for vertical travel, `CAR_LEN` otherwise. -/
def Car.wdim (c : Car) : ℚ :=
  match c.dir with
  | .N | .S => CAR_WID
  | .E | .W => CAR_LEN

/-- Rectangle height. -/
def Car.hdim (c : Car) : ℚ :=
  match c.dir with
  | .N | .S => CAR_LEN
  | .E | .W => CAR_WID

/-- Leading-edge coordinate (`front()` in the source). -/
def Car.front (c : Car) : ℚ :=
  match c.dir with
  | .N => c.ycoord
  | .S => c.ycoord + c.hdim
  | .E => c.xcoord + c.wdim
  | .W => c.xcoord

/-- The source's crossed-marking condition: the front has passed the stop
line of the car's direction. -/
def crossCondB (c : Car) : Bool :=
  match c.dir with
  | .N => decide (c.front < STOP .N)
  | .S => decide (c.front > STOP .S)
  | .E => decide (c.front > STOP .E)
  | .W => decide (c.front < STOP .W)

/-- Off-screen test (`offscreen()` in the source). -/
def Car.offscreen (c : Car) : Bool :=
  decide (c.xcoord + c.wdim < -200 ∨ c.xcoord > canvasW + 200 ∨
    c.ycoord + c.hdim < -200 ∨ c.ycoord > canvasH + 200)

/-- Straight-through movement of a crossed car: one step of `speed` along the
travel direction. -/
def Car.moveForward (c : Car) : Car :=
  match c.dir with
  | .N => { c with pos := c.pos - c.speed }
  | .S => { c with pos := c.pos + c.speed }
  | .E => { c with pos := c.pos + c.speed }
  | .W => { c with pos := c.pos - c.speed }

/-- Per-tick update of one car (`Car.update(state, curGreen)`).

Mirrors the source line by line: crossed cars go straight; otherwise the
crossed flag is marked from the current front position and a newly crossed
car immediately re-enters the crossed branch (the source's recursive
`this.update(state, curGreen)` call); otherwise `stop` is true when the
car's light is not GREEN, except that a slot-0 car of the current green
direction overrides `stop` to false; a non-stopped car with `slot > 0`
moves toward the position of slot `slot - 1` by `min speed dist` and claims
that slot index once `dist < 1`.  There is no movement statement for a
non-crossed car at slot 0, and no occupancy check of slot `slot - 1`.

The source's 2-D step `(dx/dist)*step, (dy/dist)*step` reduces to a signed
1-D step because the perpendicular coordinate of the target slot equals the
car's own; at `dist = 0` the source divides 0/0 (NaN) where this embedding
yields 0 — no theorem below evaluates the function at such a state. -/
def Car.update (state : Dir → Light) (curGreen : Dir) (c : Car) : Car :=
  if c.crossed then c.moveForward
  else
    let c1 : Car := { c with crossed := crossCondB c }
    if c1.crossed then c1.moveForward
    else
      let myLight := state c.dir
      let stop : Bool :=
        if c1.slot = 0 ∧ c1.dir = curGreen then false
        else decide (myLight ≠ Light.GREEN)
      if stop then c1
      else if 0 < c1.slot then
        let nextSlot := c1.slot - 1
        let target := slotAxis c1.dir nextSlot
        let dy := target - c1.pos
        let dist := |dy|
        let step := min c1.speed dist
        let c2 : Car := { c1 with pos := c1.pos + dy / dist * step }
        if dist < 1 then { c2 with slot := nextSlot } else c2
      else c1

/-- Count of non-crossed cars of a direction (`waitingCount(dir)`). -/
def waitingCount (cars : List Car) (d : Dir) : ℕ :=
  (cars.filter fun c => decide (c.dir = d ∧ c.crossed = false)).length

/-- Rotation used when every direction is empty: next entry after `cur` in
the fixed order list S, W, N, E of the source. -/
def rotateSWNE : Dir → Dir
  | .S => .W
  | .W => .N
  | .N => .E
  | .E => .S

/-- Density-based choice of the next green direction (`nextGreenDirection`),
with the per-direction waiting counts abstracted into `waits`.  The body is
the source's for-loop over ["N","E","S","W"] unrolled: `max` starts at -1
and `best` at the current direction, and a direction replaces `best` only
when its count strictly exceeds `max`. -/
def nextGreenDirection (waits : Dir → ℕ) (cur : Dir) : Dir :=
  let m0 : ℤ := -1
  let b0 : Dir := cur
  let m1 : ℤ := if (waits .N : ℤ) > m0 then (waits .N : ℤ) else m0
  let b1 : Dir := if (waits .N : ℤ) > m0 then .N else b0
  let m2 : ℤ := if (waits .E : ℤ) > m1 then (waits .E : ℤ) else m1
  let b2 : Dir := if (waits .E : ℤ) > m1 then .E else b1
  let m3 : ℤ := if (waits .S : ℤ) > m2 then (waits .S : ℤ) else m2
  let b3 : Dir := if (waits .S : ℤ) > m2 then .S else b2
  let m4 : ℤ := if (waits .W : ℤ) > m3 then (waits .W : ℤ) else m3
  let b4 : Dir := if (waits .W : ℤ) > m3 then .W else b3
  if m4 = 0 then rotateSWNE cur else b4

/-- Green seconds granted after yellow for waiting count `w`
(`Math.min(35, 10 + 1.5 * waiting)` in `Signal.tick`). -/
def greenSeconds (w : ℕ) : ℚ := min 35 (10 + 1.5 * (w : ℚ))

/-- State of the `Signal` object. -/
structure Sig where
  dir : Dir
  phase : Phase
  timer : ℚ
  framesLeft : ℚ
deriving DecidableEq, Repr

/-- One frame of the signal state machine (`Signal.tick()`): decrement the
countdown; at the end of green go yellow for 3 s; at the end of yellow pick
the densest direction and grant it `greenSeconds` of green. -/
def Sig.tick (cars : List Car) (s : Sig) : Sig :=
  let s1 : Sig := { s with timer := s.timer + 1, framesLeft := s.framesLeft - 1 }
  if s1.phase = Phase.green ∧ s1.framesLeft ≤ 0 then
    { s1 with phase := Phase.yellow, timer := 0, framesLeft := 3 * FPS }
  else if s1.phase = Phase.yellow ∧ s1.framesLeft ≤ 0 then
    let dir := nextGreenDirection (waitingCount cars) s1.dir
    let waiting := waitingCount cars dir
    { dir := dir, phase := Phase.green, timer := 0,
      framesLeft := greenSeconds waiting * FPS }
  else s1

/-- Per-direction display state (`Signal.state()`). -/
def Sig.stateMap (s : Sig) : Dir → Light := fun d =>
  if d = s.dir then
    match s.phase with
    | .green => Light.GREEN
    | .yellow => Light.YELLOW
  else Light.RED

/-- Random draws consumed by one spawn attempt: the direction
(`dirs[Math.floor(Math.random()*4)]`) and the new car's speed
(`Math.random()*0.5 + 0.8`). -/
structure Draw where
  dir : Dir
  speed : ℚ
deriving DecidableEq, Repr

/-- Slot indices already taken in direction `d`
(`cars.filter(c => c.dir===d).map(c => c.slot)`). -/
def filledSlots (cars : List Car) (d : Dir) : List ℕ :=
  (cars.filter fun c => decide (c.dir = d)).map Car.slot

/-- Downward search of the spawn loop `for(let s = SLOTS_MAX-1; s>=0; s--)`:
`searchFrom filled n` scans indices n-1, n-2, ..., 0 and returns the first
index not in `filled`. -/
def searchFrom (filled : List ℕ) : ℕ → Option ℕ
  | 0 => none
  | n + 1 => if n ∈ filled then searchFrom filled n else some n

/-- Spawn attempt (`spawn()`): only on frames divisible by `SPAWN_INTERVAL`,
only below the car cap, and only in the single randomly drawn direction; the
new car takes the highest free slot of that direction, and if that direction
is full nothing is spawned. -/
def spawn (frame : ℕ) (draw : Draw) (cars : List Car) : List Car :=
  if frame % SPAWN_INTERVAL ≠ 0 then cars
  else if MAX_CARS ≤ cars.length then cars
  else
    match searchFrom (filledSlots cars draw.dir) SLOTS_MAX with
    | some s => cars ++ [mkCar draw.dir s draw.speed]
    | none => cars

/-- The per-tick vehicle pass of the main loop: every car is updated with
the current display state and green direction, and updated cars that are
off screen are removed.  The source iterates indices from high to low and
splices — since `Car.update` reads only the car itself, this equals a map
followed by a filter that keeps on-screen cars in order. -/
def carsPass (state : Dir → Light) (curGreen : Dir) (cars : List Car) : List Car :=
  (cars.map (Car.update state curGreen)).filter fun c => !c.offscreen

/-- Iterated vehicle passes under a fixed display state (the state is
re-read each frame by the loop; a green phase lasts at least
`greenSeconds 0 * FPS = 600` frames, so holding it fixed for the runs below
is realizable). -/
def iterPass (state : Dir → Light) (curGreen : Dir) : ℕ → List Car → List Car
  | 0, l => l
  | n + 1, l => iterPass state curGreen n (carsPass state curGreen l)

/-- Whole-simulation state of the slot variant: the frame counter, the
signal and the car list. -/
structure SimState where
  frame : ℕ
  sig : Sig
  cars : List Car
deriving DecidableEq, Repr

/-- One iteration of the slot variant's main loop `loop()`.  The loop
increments `frame`, paints the background and roads, calls `signal.tick()`
and reads `const state = signal.state()` (a pure read) — and then calls
`signal.current()`.  This variant's `Signal` class defines only
`constructor`, `tick`, `state` and `countdown`: there is no `current`
method, so that call throws a TypeError on every iteration, before
`drawSignals`, `spawn()` or any car update can run and before any
`Math.random` draw is consumed.  The iteration is therefore modelled as
`Except`, the error value carrying the globals as the exception leaves
them: frame incremented, signal ticked, car list untouched.  The tick's
random-draw budget `draw` is declared for parity with a tick that would
reach `spawn()`, but is never read. -/
def simTick (draw : Draw) (st : SimState) : Except SimState SimState :=
  let frame := st.frame + 1
  let sig := Sig.tick st.cars st.sig
  Except.error { frame := frame, sig := sig, cars := st.cars }

/-- A signal state sitting at the start of a green phase for North; its
display map is used by the concrete runs below. -/
def sigGreenN : Sig := { dir := .N, phase := .green, timer := 0, framesLeft := 900 }

end TS

namespace V1

/-! Continuous gap-based variant (the first script of script.js: class
`Vehicle` with smooth acceleration, deceleration, and turning).  Constants
copied from `CONFIG` and the layout setup. -/

def canvasW : ℚ := 1000
def canvasH : ℚ := 700
def CX : ℚ := canvasW / 2
def CY : ℚ := canvasH / 2
def ROAD_W : ℚ := 180
def stopOffset : ℚ := 120
def safeGap : ℚ := 52
def accelRate : ℚ := 0.02
def decelRate : ℚ := 0.06

/-- Stop-line coordinate per direction (`STOP`). -/
def STOP : Dir → ℚ
  | .N => CY + stopOffset
  | .S => CY - stopOffset
  | .E => CX - stopOffset
  | .W => CX + stopOffset

/-- Lane center for N/S (an x value) and E/W (a y value), from `LANE`. -/
def LANE : Dir → ℚ
  | .N => CX - ROAD_W / 4
  | .S => CX + ROAD_W / 4
  | .E => CY - ROAD_W / 4
  | .W => CY + ROAD_W / 4

/-- Turn choice drawn once at creation (`chooseTurn`). -/
inductive Turn : Type
  | left | right | straight
deriving DecidableEq, Repr

/-- Bezier control data built by `computeTurnPath` (`this.turnPath`). -/
structure TurnPath where
  sx : ℚ
  sy : ℚ
  c1x : ℚ
  c1y : ℚ
  c2x : ℚ
  c2y : ℚ
  ex : ℚ
  ey : ℚ
deriving DecidableEq, Repr

/-- State of one vehicle (class `Vehicle`).  `w`/`h` are the footprint set
by `assignDimensions` from the kind; `v` is the current speed and
`desiredV` is the cruising target drawn at creation. -/
structure Vehicle where
  dir : Dir
  x : ℚ
  y : ℚ
  w : ℚ
  h : ℚ
  v : ℚ
  desiredV : ℚ
  crossed : Bool
  turn : Turn
  pathProgress : ℚ
  turnPath : Option TurnPath
deriving DecidableEq, Repr

/-- Leading-edge coordinate (`frontPos()`). -/
def frontPos (c : Vehicle) : ℚ :=
  match c.dir with
  | .N => c.y
  | .S => c.y + c.h
  | .E => c.x + c.w
  | .W => c.x

/-- Signed bumper-to-bumper distance from `c` to `o` when `o` lies ahead of
`c` along `c`'s travel direction; `none` when `o` is not ahead.  These are
the per-direction comparisons and differences inside `gapToAhead`. -/
def aheadDist (c o : Vehicle) : Option ℚ :=
  match c.dir with
  | .N => if o.y < c.y then some (c.y - (o.y + o.h)) else none
  | .S => if o.y > c.y then some (o.y - (c.y + c.h)) else none
  | .E => if o.x > c.x then some (o.x - (c.x + c.w)) else none
  | .W => if o.x < c.x then some (c.x - (o.x + o.w)) else none

/-- The accumulator test of `gapToAhead`:
`d >= 0 && (minGap === null || d < minGap)`. -/
def betterGap (acc : Option ℚ) (d : ℚ) : Bool :=
  decide (0 ≤ d) &&
    match acc with
    | none => true
    | some m => decide (d < m)

/-- One loop iteration of `gapToAhead` over another vehicle `o`. -/
def gapFold (c : Vehicle) (acc : Option ℚ) (o : Vehicle) : Option ℚ :=
  if o.dir = c.dir then
    match aheadDist c o with
    | some d => if betterGap acc d then some d else acc
    | none => acc
  else acc

/-- Minimum non-negative gap to a same-direction vehicle ahead
(`gapToAhead()`), `none` when no such vehicle qualifies.  `others` is the
list of vehicles other than `c` itself (the source skips `o === this` by
reference). -/
def gapToAhead (others : List Vehicle) (c : Vehicle) : Option ℚ :=
  others.foldl (gapFold c) none

/-- The braking trigger `tooClose` of `step()`:
`gap !== null && gap < CONFIG.safeGap`. -/
def tooCloseB (others : List Vehicle) (c : Vehicle) : Bool :=
  match gapToAhead others c with
  | some g => decide (g < safeGap)
  | none => false

/-- Stop-zone test (`atStopZone()`). -/
def atStopZone (c : Vehicle) : Bool :=
  match c.dir with
  | .N => decide (frontPos c ≤ STOP .N + 6)
  | .S => decide (frontPos c ≥ STOP .S - 6)
  | .E => decide (frontPos c ≥ STOP .E - 6)
  | .W => decide (frontPos c ≤ STOP .W + 6)

/-- Crossed-marking condition of `step()`: front past the stop line. -/
def crossCondB (c : Vehicle) : Bool :=
  match c.dir with
  | .N => decide (frontPos c < STOP .N)
  | .S => decide (frontPos c > STOP .S)
  | .E => decide (frontPos c > STOP .E)
  | .W => decide (frontPos c < STOP .W)

/-- Lane alignment at the top of `step()` for non-turning vehicles. -/
def laneAlign (c : Vehicle) : Vehicle :=
  match c.dir with
  | .N => { c with x := LANE .N - c.w / 2 }
  | .S => { c with x := LANE .S - c.w / 2 }
  | .E => { c with y := LANE .E - c.h / 2 }
  | .W => { c with y := LANE .W - c.h / 2 }

/-- `isTurning()`: a crossed vehicle with a left/right turn and a computed
turn path. -/
def isTurning (c : Vehicle) : Bool :=
  (decide (c.turn = Turn.left) || decide (c.turn = Turn.right)) &&
    c.crossed && c.turnPath.isSome

/-- Exit direction mapping of `computeTurnPath` (`exitMap`). -/
def exitMap (d : Dir) (t : Turn) : Dir :=
  match d, t with
  | .N, .straight => .S | .N, .left => .E | .N, .right => .W
  | .S, .straight => .N | .S, .left => .W | .S, .right => .E
  | .E, .straight => .W | .E, .left => .N | .E, .right => .S
  | .W, .straight => .E | .W, .left => .S | .W, .right => .N

/-- Path end point per exit direction (`outX`/`outY` in `computeTurnPath`). -/
def exitPoint (d : Dir) : ℚ × ℚ :=
  match d with
  | .N => (CX - ROAD_W / 4, -160)
  | .S => (CX + ROAD_W / 4, canvasH + 160)
  | .E => (canvasW + 160, CY - ROAD_W / 4)
  | .W => (-160, CY + ROAD_W / 4)

/-- Construction of the cubic path through the junction center
(`computeTurnPath`). -/
def computeTurnPath (c : Vehicle) : TurnPath :=
  let inX := c.x + c.w / 2
  let inY := c.y + c.h / 2
  let out := exitPoint (exitMap c.dir c.turn)
  { sx := inX, sy := inY,
    c1x := (inX + CX) / 2, c1y := (inY + CY) / 2,
    c2x := (out.1 + CX) / 2, c2y := (out.2 + CY) / 2,
    ex := out.1, ey := out.2 }

/-- Cubic-bezier position update (`updatePositionAlongTurn(t)`). -/
def posAlongTurn (c : Vehicle) (p : TurnPath) (t : ℚ) : Vehicle :=
  let u := 1 - t
  let bx := u * u * u * p.sx + 3 * u * u * t * p.c1x + 3 * u * t * t * p.c2x + t * t * t * p.ex
  let by_ := u * u * u * p.sy + 3 * u * u * t * p.c1y + 3 * u * t * t * p.c2y + t * t * t * p.ey
  { c with x := bx - c.w / 2, y := by_ - c.h / 2 }

/-- The velocity-control block of `step()` (its three branches in source
order): brake when too close or held at the line, otherwise accelerate
toward (or cruise at) the desired speed when crossed or released by green,
otherwise bleed speed at 1.2 times the braking rate. -/
def speedStep (blocked allowed : Bool) (desired v : ℚ) : ℚ :=
  if blocked then max 0 (v - decelRate)
  else if allowed then
    if v < desired then min desired (v + accelRate) else max desired (v - 0)
  else max 0 (v - decelRate * 1.2)

/-- Positional movement at the end of `step()`: move by `v` along the
travel direction when `v > 0`. -/
def moveDir (c : Vehicle) : Vehicle :=
  match c.dir with
  | .N => { c with y := c.y - c.v }
  | .S => { c with y := c.y + c.v }
  | .E => { c with x := c.x + c.v }
  | .W => { c with x := c.x - c.v }

/-- Global signal state read by `step()` (`signalState`). -/
structure SigV where
  dir : Dir
  phase : Phase
deriving DecidableEq, Repr

/-- Crossed-marking block of `step()`: flip `crossed` once the front passes
the stop line, building the turn path on the tick the flag flips for a
left/right-turning vehicle. -/
def markCrossed (c : Vehicle) : Vehicle :=
  if c.crossed then c
  else if crossCondB c then
    let c1 : Vehicle := { c with crossed := true }
    if c1.turn ≠ Turn.straight then
      { c1 with turnPath := some (computeTurnPath c1), pathProgress := 0 }
    else c1
  else c

/-- Movement half of `step()` on the already-marked vehicle `cm`, given the
pre-computed `tooClose` flag: bezier movement for crossed turning vehicles,
otherwise the speed-control block followed by straight movement. -/
def stepMove (sig : SigV) (tooClose : Bool) (cm : Vehicle) : Vehicle :=
  let allowStart := decide (sig.dir = cm.dir ∧ sig.phase = Phase.green)
  let inStop := !cm.crossed && atStopZone cm
  let shouldStop := !cm.crossed && !allowStart && inStop
  if isTurning cm && cm.crossed then
    match cm.turnPath with
    | some p =>
      let stepAmount := cm.desiredV / 1.2
      let prog := min (cm.pathProgress + stepAmount / 60) 1
      let c2 : Vehicle := posAlongTurn { cm with pathProgress := prog } p prog
      if prog ≥ 0.98 then { c2 with v := max 0 (c2.v - decelRate) } else c2
    | none => cm
  else
    let c3 : Vehicle := { cm with v := speedStep (tooClose || shouldStop) (cm.crossed || allowStart) cm.desiredV cm.v }
    if c3.v > 0 then moveDir c3 else c3

/-- Per-tick update of one vehicle (`Vehicle.step()`), faithful to the
source's statement order: lane alignment for non-turning vehicles; gap and
`tooClose` computation; crossed marking from the pre-move front position;
then the movement half. -/
def step (sig : SigV) (others : List Vehicle) (c0 : Vehicle) : Vehicle :=
  let ca : Vehicle := if isTurning c0 then c0 else laneAlign c0
  stepMove sig (tooCloseB others ca) (markCrossed ca)

end V1

namespace P0

/-! The Pygame-clone variant (src/unnamed/part_000): constant-speed cars
with a gap check, a density-adaptive signal whose `Signal` class DOES
define `current()`, and a one-direction random spawner.  This is the
variant whose main loop actually runs, so it is where the per-tick
randomness of the repository is observable.  Constants copied from the
source (canvas 1000 x 700 per the file header). -/

def SCREEN_WIDTH : ℚ := 1000
def SCREEN_HEIGHT : ℚ := 700
def ROAD_WIDTH : ℚ := 180
def FPS : ℚ := 60
def BASE_GREEN_FRAMES : ℚ := 900
def YELLOW_FRAMES : ℚ := 180
def STOP_GAP : ℚ := 140
def SAFE_GAP : ℚ := 45
def STOP_OFFSET : ℚ := 30
def SPAWN_INTERVAL : ℕ := 50
def MAX_CARS : ℕ := 40
def CAR_LENGTH : ℚ := 44
def CAR_WIDTH : ℚ := 24

/-- `Math.floor(SCREEN_WIDTH / 2)` = 500 (the operand is an integer). -/
def CENTER_X : ℚ := 500

/-- `Math.floor(SCREEN_HEIGHT / 2)` = 350. -/
def CENTER_Y : ℚ := 350

/-- `Math.floor(ROAD_WIDTH / 4)` = 45. -/
def LANE_SHIFT : ℚ := 45

/-- Stop-line coordinate per direction (`STOP_LINES`). -/
def STOP_LINES : Dir → ℚ
  | .N => CENTER_Y + STOP_GAP
  | .S => CENTER_Y - STOP_GAP
  | .E => CENTER_X - STOP_GAP
  | .W => CENTER_X + STOP_GAP

/-- The non-null coordinate of the source's `LANE_POS` pair: an x value for
N/S and a y value for E/W. -/
def LANE_POS : Dir → ℚ
  | .N => CENTER_X - LANE_SHIFT
  | .S => CENTER_X + LANE_SHIFT
  | .E => CENTER_Y - LANE_SHIFT
  | .W => CENTER_Y + LANE_SHIFT

/-- State of one car (class `Car`): direction, the speed drawn once at
construction (`rand(1.2, 1.8)`), the crossed flag, and the rectangle set by
`initRect` (the source's `Math.floor(w)`/`Math.floor(h)` are identities on
the integer constants 44 and 24). -/
structure Car where
  direction : Dir
  speed : ℚ
  crossed : Bool
  w : ℚ
  h : ℚ
  x : ℚ
  y : ℚ
deriving DecidableEq, Repr

/-- Rectangle width set by `initRect`. -/
def initW (d : Dir) : ℚ :=
  match d with
  | .N | .S => CAR_WIDTH
  | .E | .W => CAR_LENGTH

/-- Rectangle height set by `initRect`. -/
def initH (d : Dir) : ℚ :=
  match d with
  | .N | .S => CAR_LENGTH
  | .E | .W => CAR_WIDTH

/-- Initial x coordinate of `initRect`; `off` is the integer spawn-offset
draw `Math.floor(rand(100, 180))` (a value in 100..179). -/
def initX (d : Dir) (off : ℕ) : ℚ :=
  match d with
  | .N => LANE_POS .N - ((⌊(CAR_WIDTH : ℚ) / 2⌋ : ℤ) : ℚ)
  | .S => LANE_POS .S - ((⌊(CAR_WIDTH : ℚ) / 2⌋ : ℤ) : ℚ)
  | .E => -CAR_LENGTH - (off : ℚ)
  | .W => SCREEN_WIDTH + (off : ℚ)

/-- Initial y coordinate of `initRect`. -/
def initY (d : Dir) (off : ℕ) : ℚ :=
  match d with
  | .N => SCREEN_HEIGHT + (off : ℚ)
  | .S => -CAR_LENGTH - (off : ℚ)
  | .E => LANE_POS .E - ((⌊(CAR_WIDTH : ℚ) / 2⌋ : ℤ) : ℚ)
  | .W => LANE_POS .W - ((⌊(CAR_WIDTH : ℚ) / 2⌋ : ℤ) : ℚ)

/-- Constructor `new Car(direction)` with its two random draws (speed and
spawn offset) taken as parameters. -/
def mkCar (d : Dir) (speed : ℚ) (off : ℕ) : Car :=
  { direction := d, speed := speed, crossed := false,
    w := initW d, h := initH d, x := initX d off, y := initY d off }

/-- Lane re-centering at the top of every `move()` (`laneLock`). -/
def laneLock (c : Car) : Car :=
  match c.direction with
  | .N => { c with x := LANE_POS .N - ((⌊c.w / 2⌋ : ℤ) : ℚ) }
  | .S => { c with x := LANE_POS .S - ((⌊c.w / 2⌋ : ℤ) : ℚ) }
  | .E => { c with y := LANE_POS .E - ((⌊c.h / 2⌋ : ℤ) : ℚ) }
  | .W => { c with y := LANE_POS .W - ((⌊c.h / 2⌋ : ℤ) : ℚ) }

/-- Leading-edge coordinate (`frontPos()`). -/
def frontPos (c : Car) : ℚ :=
  match c.direction with
  | .N => c.y
  | .S => c.y + c.h
  | .E => c.x + c.w
  | .W => c.x

/-- Crossed-marking condition of `move()`: front past the stop line. -/
def crossCondB (c : Car) : Bool :=
  match c.direction with
  | .N => decide (frontPos c < STOP_LINES .N)
  | .S => decide (frontPos c > STOP_LINES .S)
  | .E => decide (frontPos c > STOP_LINES .E)
  | .W => decide (frontPos c < STOP_LINES .W)

/-- The stop-zone part of `should_stop`: front within `STOP_OFFSET` of the
stop line. -/
def stopZoneB (c : Car) : Bool :=
  match c.direction with
  | .N => decide (frontPos c ≤ STOP_LINES .N + STOP_OFFSET)
  | .S => decide (frontPos c ≥ STOP_LINES .S - STOP_OFFSET)
  | .E => decide (frontPos c ≥ STOP_LINES .E - STOP_OFFSET)
  | .W => decide (frontPos c ≤ STOP_LINES .W + STOP_OFFSET)

/-- Off-screen test (`offscreen()`). -/
def Car.offscreen (c : Car) : Bool :=
  decide (c.x + c.w < -120 ∨ c.x > SCREEN_WIDTH + 120 ∨
    c.y + c.h < -120 ∨ c.y > SCREEN_HEIGHT + 120)

/-- Signed bumper-to-bumper distance from `c` to `o` when `o` is ahead of
`c` (the per-direction comparisons inside `gap`). -/
def aheadDist (c o : Car) : Option ℚ :=
  match c.direction with
  | .N => if o.y < c.y then some (c.y - (o.y + o.h)) else none
  | .S => if o.y > c.y then some (o.y - (c.y + c.h)) else none
  | .E => if o.x > c.x then some (o.x - (c.x + c.w)) else none
  | .W => if o.x < c.x then some (c.x - (o.x + o.w)) else none

/-- The accumulator test of `gap`:
`d >= 0 && (minGap === null || d < minGap)`. -/
def betterGap (acc : Option ℚ) (d : ℚ) : Bool :=
  decide (0 ≤ d) &&
    match acc with
    | none => true
    | some m => decide (d < m)

/-- One loop iteration of `gap` over another car `o`. -/
def gapFold (c : Car) (acc : Option ℚ) (o : Car) : Option ℚ :=
  if o.direction = c.direction then
    match aheadDist c o with
    | some d => if betterGap acc d then some d else acc
    | none => acc
  else acc

/-- Minimum non-negative gap to a same-direction car ahead (`gap(cars)`);
`others` is the array without `c` itself (the source skips `c === this` by
reference). -/
def gap (others : List Car) (c : Car) : Option ℚ :=
  others.foldl (gapFold c) none

/-- Straight movement at the bottom of `move()`: one step of `speed`. -/
def moveDir (c : Car) : Car :=
  match c.direction with
  | .N => { c with y := c.y - c.speed }
  | .S => { c with y := c.y + c.speed }
  | .E => { c with x := c.x + c.speed }
  | .W => { c with x := c.x - c.speed }

/-- Per-tick update of one car (`Car.move(state, current_green, cars)`),
in the source's statement order: lane lock; gap and `stop_for_gap`; the
light and the front position; crossed marking; `should_stop` (its zone test
uses the `front` constant captured before the marking — the same
coordinates, since marking moves nothing); then one speed step when the car
is crossed, or released by being the green direction without `should_stop`,
and in either case not blocked by the gap. -/
def move (state : Dir → Light) (currentGreen : Dir) (others : List Car) (c0 : Car) : Car :=
  let c := laneLock c0
  let g := gap others c
  let stop_for_gap : Bool :=
    match g with
    | some gv => decide (gv < SAFE_GAP)
    | none => false
  let light := state c.direction
  let c1 : Car := if c.crossed = false ∧ crossCondB c = true then { c with crossed := true } else c
  let should_stop : Bool := !c1.crossed && decide (light ≠ Light.GREEN) && stopZoneB c
  if (c1.crossed || (!should_stop && decide (c1.direction = currentGreen))) && !stop_for_gap then
    moveDir c1
  else c1

/-- Count of not-crossed cars of a direction (`countWaitingCars(dir)`). -/
def countWaitingCars (cars : List Car) (d : Dir) : ℕ :=
  (cars.filter fun c => decide (c.direction = d ∧ c.crossed = false)).length

/-- Rotation over the source's order list S, W, N, E when every count is
zero. -/
def rotateSWNE : Dir → Dir
  | .S => .W
  | .W => .N
  | .N => .E
  | .E => .S

/-- Density-based choice of the next green direction
(`chooseHighestDensityDirection`): the same `-1`-initialized strict-`>`
scan over N, E, S, W as the slot variant's `nextGreenDirection`, unrolled,
with the S, W, N, E rotation when every count is zero. -/
def chooseHighestDensityDirection (waits : Dir → ℕ) (cur : Dir) : Dir :=
  let m0 : ℤ := -1
  let b0 : Dir := cur
  let m1 : ℤ := if (waits .N : ℤ) > m0 then (waits .N : ℤ) else m0
  let b1 : Dir := if (waits .N : ℤ) > m0 then .N else b0
  let m2 : ℤ := if (waits .E : ℤ) > m1 then (waits .E : ℤ) else m1
  let b2 : Dir := if (waits .E : ℤ) > m1 then .E else b1
  let m3 : ℤ := if (waits .S : ℤ) > m2 then (waits .S : ℤ) else m2
  let b3 : Dir := if (waits .S : ℤ) > m2 then .S else b2
  let m4 : ℤ := if (waits .W : ℤ) > m3 then (waits .W : ℤ) else m3
  let b4 : Dir := if (waits .W : ℤ) > m3 then .W else b3
  if m4 = 0 then rotateSWNE cur else b4

/-- State of the `Signal` object of this variant (it also stores the last
granted `greenFrames`). -/
structure Signal where
  dir : Dir
  phase : Phase
  timer : ℚ
  greenFrames : ℚ
  timerFramesLeft : ℚ
deriving DecidableEq, Repr

/-- The `Signal` constructor state: green South with
`BASE_GREEN_FRAMES = 900` on the clock. -/
def sigGreenS : Signal :=
  { dir := .S, phase := .green, timer := 0, greenFrames := BASE_GREEN_FRAMES,
    timerFramesLeft := BASE_GREEN_FRAMES }

/-- One frame of `Signal.tick()`: decrement; end of green goes yellow for
`YELLOW_FRAMES`; end of yellow picks the densest direction and grants
`Math.round(min(35, 10 + 1.5 w) * FPS)` frames of green. -/
def Signal.tick (cars : List Car) (s : Signal) : Signal :=
  let s1 : Signal := { s with timer := s.timer + 1, timerFramesLeft := s.timerFramesLeft - 1 }
  if s1.phase = Phase.green ∧ s1.timerFramesLeft ≤ 0 then
    { s1 with phase := Phase.yellow, timer := 0, timerFramesLeft := YELLOW_FRAMES }
  else if s1.phase = Phase.yellow ∧ s1.timerFramesLeft ≤ 0 then
    let next := chooseHighestDensityDirection (countWaitingCars cars) s1.dir
    let waiting := countWaitingCars cars next
    let greenSec : ℚ := min 35 (10 + 1.5 * (waiting : ℚ))
    let gf : ℚ := ((round (greenSec * FPS) : ℤ) : ℚ)
    { dir := next, phase := Phase.green, timer := 0, greenFrames := gf, timerFramesLeft := gf }
  else s1

/-- Per-direction display state (`Signal.state()`). -/
def Signal.state (s : Signal) : Dir → Light := fun d =>
  if d = s.dir then
    match s.phase with
    | .green => Light.GREEN
    | .yellow => Light.YELLOW
  else Light.RED

/-- `Signal.current()` — defined in THIS variant's class. -/
def Signal.current (s : Signal) : Dir := s.dir

/-- Random draws consumed by one spawning tick: the direction
(`['N','S','E','W'][Math.floor(Math.random()*4)]`) and the new car's two
constructor draws, speed (`rand(1.2, 1.8)`) and spawn offset
(`Math.floor(rand(100, 180))`). -/
structure Draw where
  dir : Dir
  speed : ℚ
  off : ℕ
deriving DecidableEq, Repr

/-- Spawn attempt (`trySpawn()`): only on frames divisible by
`SPAWN_INTERVAL` and below the car cap; pushes one new car of the randomly
drawn direction. -/
def trySpawn (frameCount : ℕ) (draw : Draw) (cars : List Car) : List Car :=
  if frameCount % SPAWN_INTERVAL ≠ 0 then cars
  else if MAX_CARS ≤ cars.length then cars
  else cars ++ [mkCar draw.dir draw.speed draw.off]

/-- The car loop of `updateAndDraw`: indices from `cars.length - 1` down to
0; each car is moved against the CURRENT array without itself (the source
passes the whole array and `gap` skips `c === this` by reference; every
array entry is a distinct object), written back in place, and spliced out
when off screen — splicing at index `i` leaves indices below `i` intact,
exactly as the downward iteration requires. -/
def carsLoopAux (state : Dir → Light) (cur : Dir) : ℕ → List Car → List Car
  | 0, cars => cars
  | n + 1, cars =>
    match cars[n]? with
    | none => carsLoopAux state cur n cars
    | some c =>
      let c1 := move state cur (cars.take n ++ cars.drop (n + 1)) c
      let cars1 := cars.set n c1
      let cars2 := if c1.offscreen then cars1.eraseIdx n else cars1
      carsLoopAux state cur n cars2

/-- The full downward car pass. -/
def carsLoop (state : Dir → Light) (cur : Dir) (cars : List Car) : List Car :=
  carsLoopAux state cur cars.length cars

/-- Whole-simulation state of this variant. -/
structure SimP where
  frameCount : ℕ
  signal : Signal
  cars : List Car
deriving DecidableEq, Repr

/-- One iteration of `updateAndDraw()` (drawing omitted): increment
`frameCount`, tick the signal, read `signal.state()` and
`signal.current()` (which exists here), run `trySpawn()`, then the
downward move-and-splice car loop. -/
def updateAndDraw (draw : Draw) (st : SimP) : SimP :=
  let frameCount := st.frameCount + 1
  let signal := Signal.tick st.cars st.signal
  let state := signal.state
  let current := signal.current
  let cars1 := trySpawn frameCount draw st.cars
  let cars2 := carsLoop state current cars1
  { frameCount := frameCount, signal := signal, cars := cars2 }

end P0

/-- Modelled from the spec's words for claim C5 (tie-break rule only; the
source implements a different one): the next green direction is an argmax of
the waiting counts, keeping the current direction when it is among the
maxima and otherwise taking the first maximal direction in the order
N, E, S, W. -/
def specNextGreenTieKeepCurrent (waits : Dir → ℕ) (cur : Dir) : Dir :=
  let m := max (max (waits .N) (waits .E)) (max (waits .S) (waits .W))
  if waits cur = m then cur
  else if waits .N = m then .N
  else if waits .E = m then .E
  else if waits .S = m then .S
  else .W

/-- Two northbound cars used by the concrete runs: `carA` occupies slot 0
(speed 1) and `carB` occupies slot 1 (speed 1.2, a value of the source's
spawn range [0.8, 1.3)). -/
def carA : TS.Car := TS.mkCar .N 0 1

/-- Companion of `carA` at slot 1. -/
def carB : TS.Car := TS.mkCar .N 1 (6 / 5)

/-- A northbound non-crossed slot-1 car of speed 1.2 at travel coordinate
`p`; the state `carB` reaches after some green ticks. -/
def carBAt (p : ℚ) : TS.Car :=
  { dir := .N, slot := 1, crossed := false, speed := 6 / 5, pos := p }

/-- Helper: `Car.update` fixes any non-crossed slot-0 car whose front has
not passed the stop line — the source has no movement statement for slot 0. -/
lemma ts_update_slot0 (state : Dir → Light) (cur : Dir) (d : Dir) (sp p : ℚ)
    (h2 : TS.crossCondB ⟨d, 0, false, sp, p⟩ = false) :
    TS.Car.update state cur ⟨d, 0, false, sp, p⟩ = ⟨d, 0, false, sp, p⟩ := by
  simp only [TS.Car.update, h2, Bool.false_eq_true, if_false, lt_irrefl]
  split <;> first | rfl | (split <;> rfl)

/-- Helper: a non-crossed car at slot `> 0` behind the stop line is
unchanged by `Car.update` when its direction's light is not green. -/
lemma ts_update_red (state : Dir → Light) (cur : Dir) (d : Dir) (s : ℕ) (sp p : ℚ)
    (h2 : TS.crossCondB ⟨d, s, false, sp, p⟩ = false) (h3 : 0 < s)
    (hg : state d ≠ Light.GREEN) :
    TS.Car.update state cur ⟨d, s, false, sp, p⟩ = ⟨d, s, false, sp, p⟩ := by
  have hs0 : ¬(s = 0 ∧ d = cur) := fun hh => absurd hh.1 (Nat.pos_iff_ne_zero.mp h3)
  simp only [TS.Car.update, h2, Bool.false_eq_true, if_false, if_neg hs0]
  simp [hg]

/-- Helper: movement of a non-crossed car at slot `> 0` behind the stop
line under a green light, exactly as the source computes it. -/
lemma ts_update_green (state : Dir → Light) (cur : Dir) (d : Dir) (s : ℕ) (sp p : ℚ)
    (h2 : TS.crossCondB ⟨d, s, false, sp, p⟩ = false) (h3 : 0 < s)
    (hg : state d = Light.GREEN) :
    TS.Car.update state cur ⟨d, s, false, sp, p⟩ =
      (if |TS.slotAxis d (s - 1) - p| < 1 then
        ⟨d, s - 1, false, sp, p + (TS.slotAxis d (s - 1) - p) / |TS.slotAxis d (s - 1) - p| *
          min sp |TS.slotAxis d (s - 1) - p|⟩
      else
        ⟨d, s, false, sp, p + (TS.slotAxis d (s - 1) - p) / |TS.slotAxis d (s - 1) - p| *
          min sp |TS.slotAxis d (s - 1) - p|⟩) := by
  have hs0 : ¬(s = 0 ∧ d = cur) := fun hh => absurd hh.1 (Nat.pos_iff_ne_zero.mp h3)
  simp only [TS.Car.update, h2, Bool.false_eq_true, if_false, if_neg hs0, hg]
  simp [h3]

/-- Numeric value of the slot-0 coordinate for North. -/
lemma slotAxisN0 : TS.slotAxis .N 0 = 555 := by
  norm_num [TS.slotAxis, TS.STOP, TS.CENTER_Y, TS.canvasH, TS.STOP_GAP, TS.SLOT_GAP]

/-- Numeric value of the slot-1 coordinate for North. -/
lemma slotAxisN1 : TS.slotAxis .N 1 = 620 := by
  norm_num [TS.slotAxis, TS.STOP, TS.CENTER_Y, TS.canvasH, TS.STOP_GAP, TS.SLOT_GAP]

/-- A northbound car whose coordinate is at least the stop line (490) is not
marked crossed. -/
lemma crossCondB_north (s : ℕ) (sp p : ℚ) (hp : TS.STOP .N ≤ p) :
    TS.crossCondB ⟨.N, s, false, sp, p⟩ = false := by
  simp only [TS.crossCondB, TS.Car.front, TS.Car.ycoord, decide_eq_false_iff_not, not_lt]
  exact hp

/-- A northbound car with coordinate in [-244, 900] is on screen. -/
lemma offscreen_north (s : ℕ) (cr : Bool) (sp p : ℚ) (hlo : -244 ≤ p) (hhi : p ≤ 900) :
    TS.Car.offscreen ⟨.N, s, cr, sp, p⟩ = false := by
  simp only [TS.Car.offscreen, TS.Car.xcoord, TS.Car.ycoord, TS.Car.wdim, TS.Car.hdim,
    decide_eq_false_iff_not]
  push_neg
  refine ⟨?_, ?_, ?_, ?_⟩ <;>
    norm_num [TS.LANE, TS.CENTER_X, TS.canvasW, TS.canvasH, TS.CAR_WID,
      TS.CAR_LEN, TS.ROAD_WIDTH] <;> linarith

/-- The display map of `sigGreenN` shows green for North. -/
lemma sigGreenN_N : TS.sigGreenN.stateMap .N = Light.GREEN := rfl

/-- `carA` is fixed by the update under any state: it is a non-crossed
slot-0 car behind the stop line. -/
lemma updateA : TS.Car.update TS.sigGreenN.stateMap .N carA = carA := by
  have h2 : TS.crossCondB ⟨.N, 0, false, 1, TS.slotAxis .N 0⟩ = false :=
    crossCondB_north 0 1 _ (by rw [slotAxisN0]; norm_num [TS.STOP, TS.CENTER_Y, TS.canvasH, TS.STOP_GAP])
  exact ts_update_slot0 TS.sigGreenN.stateMap .N .N 1 (TS.slotAxis .N 0) h2

/-- One green tick of `carBAt p` while still at least one step away from
the slot-0 position: full-speed advance, slot kept. -/
lemma updateB_far (p : ℚ) (h1 : 555 + 6 / 5 ≤ p) :
    TS.Car.update TS.sigGreenN.stateMap .N (carBAt p) = carBAt (p - 6 / 5) := by
  have hstop : TS.STOP .N ≤ p := by
    norm_num [TS.STOP, TS.CENTER_Y, TS.canvasH, TS.STOP_GAP]; linarith
  have hcc : TS.crossCondB ⟨.N, 1, false, 6 / 5, p⟩ = false := crossCondB_north 1 _ p hstop
  have h := ts_update_green TS.sigGreenN.stateMap .N .N 1 (6 / 5) p hcc (by norm_num) sigGreenN_N
  have hp0 : (0 : ℚ) < p - 555 := by linarith
  have ht : TS.slotAxis Dir.N (1 - 1) = 555 := slotAxisN0
  have hd : TS.slotAxis Dir.N (1 - 1) - p = -(p - 555) := by rw [ht]; ring
  have habs : |TS.slotAxis Dir.N (1 - 1) - p| = p - 555 := by
    rw [hd, abs_neg, abs_of_pos hp0]
  have hq : (TS.slotAxis Dir.N (1 - 1) - p) / |TS.slotAxis Dir.N (1 - 1) - p| = -1 := by
    rw [habs, hd, neg_div, div_self (ne_of_gt hp0)]
  show TS.Car.update TS.sigGreenN.stateMap .N ⟨.N, 1, false, 6 / 5, p⟩ = carBAt (p - 6 / 5)
  rw [h, if_neg (by rw [habs]; linarith), hq, habs]
  have hmin : min (6 / 5 : ℚ) (p - 555) = 6 / 5 := min_eq_left (by linarith)
  rw [hmin]
  show (⟨.N, 1, false, 6 / 5, p + -1 * (6 / 5)⟩ : TS.Car) = carBAt (p - 6 / 5)
  have harith : p + -1 * (6 / 5) = p - 6 / 5 := by ring
  rw [harith]
  rfl

/-- The final green tick of `carBAt p` once within 1 px of the slot-0
position: the car lands exactly on slot 0's coordinate and claims slot 0. -/
lemma updateB_near (p : ℚ) (h1 : 555 < p) (h2 : p < 556) :
    TS.Car.update TS.sigGreenN.stateMap .N (carBAt p) =
      (⟨.N, 0, false, 6 / 5, 555⟩ : TS.Car) := by
  have hstop : TS.STOP .N ≤ p := by
    norm_num [TS.STOP, TS.CENTER_Y, TS.canvasH, TS.STOP_GAP]; linarith
  have hcc : TS.crossCondB ⟨.N, 1, false, 6 / 5, p⟩ = false := crossCondB_north 1 _ p hstop
  have h := ts_update_green TS.sigGreenN.stateMap .N .N 1 (6 / 5) p hcc (by norm_num) sigGreenN_N
  have hp0 : (0 : ℚ) < p - 555 := by linarith
  have ht : TS.slotAxis Dir.N (1 - 1) = 555 := slotAxisN0
  have hd : TS.slotAxis Dir.N (1 - 1) - p = -(p - 555) := by rw [ht]; ring
  have habs : |TS.slotAxis Dir.N (1 - 1) - p| = p - 555 := by
    rw [hd, abs_neg, abs_of_pos hp0]
  have hq : (TS.slotAxis Dir.N (1 - 1) - p) / |TS.slotAxis Dir.N (1 - 1) - p| = -1 := by
    rw [habs, hd, neg_div, div_self (ne_of_gt hp0)]
  show TS.Car.update TS.sigGreenN.stateMap .N ⟨.N, 1, false, 6 / 5, p⟩ = _
  rw [h, if_pos (by rw [habs]; linarith), hq, habs]
  have hmin : min (6 / 5 : ℚ) (p - 555) = p - 555 := min_eq_right (by linarith)
  rw [hmin]
  show (⟨.N, 0, false, 6 / 5, p + -1 * (p - 555)⟩ : TS.Car) = _
  have : p + -1 * (p - 555) = 555 := by ring
  rw [this]

/-- One full vehicle pass on the two-car queue while `carB`'s successor is
still at least a full step away: `carA` is fixed, the follower advances. -/
lemma passAB_far (p : ℚ) (h1 : 555 + 6 / 5 ≤ p) (h2 : p ≤ 620) :
    TS.carsPass TS.sigGreenN.stateMap .N [carA, carBAt p] = [carA, carBAt (p - 6 / 5)] := by
  have hoffA : TS.Car.offscreen carA = false := by
    show TS.Car.offscreen ⟨.N, 0, false, 1, TS.slotAxis .N 0⟩ = false
    refine offscreen_north 0 false 1 _ ?_ ?_ <;> rw [slotAxisN0] <;> norm_num
  have hoffB : TS.Car.offscreen (carBAt (p - 6 / 5)) = false := by
    show TS.Car.offscreen ⟨.N, 1, false, 6 / 5, p - 6 / 5⟩ = false
    exact offscreen_north 1 false _ _ (by linarith) (by linarith)
  unfold TS.carsPass
  rw [List.map_cons, List.map_cons, List.map_nil, updateA, updateB_far p h1]
  simp [List.filter_cons, hoffA, hoffB]

/-- Peeling the last pass off an iterated run. -/
lemma iterPass_succ_right (state : Dir → Light) (cur : Dir) (n : ℕ) (l : List TS.Car) :
    TS.iterPass state cur (n + 1) l = TS.carsPass state cur (TS.iterPass state cur n l) := by
  induction n generalizing l with
  | zero => rfl
  | succ n ih =>
    show TS.iterPass state cur (n + 1) (TS.carsPass state cur l) = _
    rw [ih]
    rfl

/-- Closed form of the first 54 green ticks: `carA` never moves and `carB`
advances by 1.2 px per tick. -/
lemma runAB (n : ℕ) (hn : n ≤ 54) :
    TS.iterPass TS.sigGreenN.stateMap .N n [carA, carBAt 620] =
      [carA, carBAt (620 - 6 / 5 * n)] := by
  induction n with
  | zero => norm_num [TS.iterPass]
  | succ n ih =>
    have hn' : n ≤ 54 := by omega
    have hc : (n : ℚ) ≤ 53 := by exact_mod_cast Nat.le_of_lt_succ (by omega)
    rw [iterPass_succ_right, ih hn', passAB_far _ (by linarith) (by
      have : (0 : ℚ) ≤ (n : ℚ) := Nat.cast_nonneg n
      linarith)]
    have : (620 : ℚ) - 6 / 5 * n - 6 / 5 = 620 - 6 / 5 * (n + 1 : ℕ) := by
      push_cast; ring
    rw [this]

/-- Claim C1: slot-uniqueness of non-crossed same-direction cars is NOT
preserved by the per-tick vehicle update.  Under a green light for North,
`carA` (slot 0) never moves — `Car.update` has no movement statement for a
non-crossed slot-0 car — while `carB` (slot 1) advances toward slot 0's
position with no occupancy check and claims slot index 0 once within 1 px.
After 55 vehicle passes both cars are non-crossed, both hold slot index 0,
and both sit at the same coordinate 555 (total footprint overlap), refuting
the claimed invariant and the source's own NO OVERLAP GUARANTEED comments. -/
theorem C1_slot_uniqueness_violated :
    (TS.iterPass TS.sigGreenN.stateMap .N 55 [carA, carB]).map
        (fun c => (c.slot, c.crossed)) = [(0, false), (0, false)] ∧
    (TS.iterPass TS.sigGreenN.stateMap .N 55 [carA, carB]).map TS.Car.pos = [555, 555] := by
  have hB : carB = carBAt 620 := by
    show (⟨.N, 1, false, 6 / 5, TS.slotAxis .N 1⟩ : TS.Car) = carBAt 620
    rw [slotAxisN1]
    rfl
  have h54 := runAB 54 (by norm_num)
  have hval : (620 : ℚ) - 6 / 5 * (54 : ℕ) = 2776 / 5 := by push_cast; norm_num
  rw [hB, iterPass_succ_right, h54, hval]
  have hoffA : TS.Car.offscreen carA = false := by
    show TS.Car.offscreen ⟨.N, 0, false, 1, TS.slotAxis .N 0⟩ = false
    refine offscreen_north 0 false 1 _ ?_ ?_ <;> rw [slotAxisN0] <;> norm_num
  have hoffB : TS.Car.offscreen (⟨.N, 0, false, 6 / 5, 555⟩ : TS.Car) = false :=
    offscreen_north 0 false _ _ (by norm_num) (by norm_num)
  unfold TS.carsPass
  rw [List.map_cons, List.map_cons, List.map_nil, updateA,
    updateB_near (2776 / 5) (by norm_num) (by norm_num)]
  simp only [List.filter_cons, hoffA, hoffB, Bool.not_false, if_pos, List.filter_nil]
  refine ⟨rfl, ?_⟩
  show [TS.Car.pos carA, (555 : ℚ)] = [555, 555]
  have : TS.Car.pos carA = 555 := by
    show TS.slotAxis .N 0 = 555
    exact slotAxisN0
  rw [this]

/-- Claim C2: a non-crossed car at slot 0 whose front is behind the stop
line is left completely unchanged by `Car.update`, whatever the display
state and current green direction — the source sets `stop = false` for a
slot-0 car of the green direction but has no movement statement for slot 0,
so such a car never advances into the intersection (contradicting both the
claim and the source's own comment on that branch). -/
theorem C2_slot0_never_moves (state : Dir → Light) (cur : Dir) (c : TS.Car)
    (h0 : c.slot = 0) (h1 : c.crossed = false) (h2 : TS.crossCondB c = false) :
    TS.Car.update state cur c = c := by
  obtain ⟨d, s, cr, sp, p⟩ := c
  have h0' : s = 0 := h0
  have h1' : cr = false := h1
  subst h0' h1'
  exact ts_update_slot0 state cur d sp p h2

/-- Witness for C2 at the exact scenario of the claim: North is the active
green direction and `carA` holds slot 0 non-crossed, yet the update leaves
it unchanged. -/
theorem C2_slot0_never_moves_witness :
    TS.Car.update TS.sigGreenN.stateMap .N carA = carA :=
  C2_slot0_never_moves TS.sigGreenN.stateMap .N carA rfl rfl
    (crossCondB_north 0 1 _ (by rw [slotAxisN0]; norm_num [TS.STOP, TS.CENTER_Y, TS.canvasH, TS.STOP_GAP]))

/-- Claim C3 counterexample: with non-crossed `carA` holding slot 0 and the
light green for North, the vehicle pass still moves `carB` (slot 1) toward
slot 0 — its coordinate drops from 620 to 618.8 — so a held slot `i - 1`
does not prevent the advance: the source checks only the light. -/
theorem C3_counterexample :
    (TS.carsPass TS.sigGreenN.stateMap .N [carA, carB]).map TS.Car.pos = [555, 3094 / 5] ∧
    carA.slot = 0 ∧ carA.crossed = false ∧ carB.slot = 1 ∧ carB.crossed = false := by
  have hB : carB = carBAt 620 := by
    show (⟨.N, 1, false, 6 / 5, TS.slotAxis .N 1⟩ : TS.Car) = carBAt 620
    rw [slotAxisN1]
    rfl
  refine ⟨?_, rfl, rfl, rfl, rfl⟩
  rw [hB, passAB_far 620 (by norm_num) (by norm_num)]
  have h620 : (620 : ℚ) - 6 / 5 = 3094 / 5 := by norm_num
  rw [h620]
  show [TS.Car.pos carA, (3094 / 5 : ℚ)] = [555, 3094 / 5]
  have : TS.Car.pos carA = 555 := by
    show TS.slotAxis .N 0 = 555
    exact slotAxisN0
  rw [this]

/-- Waiting counts N=1, E=0, S=1, W=0: a tie between N and S. -/
def c5waits : Dir → ℕ
  | .N => 1 | .S => 1 | .E => 0 | .W => 0

/-- Claim C5 counterexample: with waiting counts N=1, E=0, S=1, W=0 and
current direction South (a maximum), the source's `nextGreenDirection`
returns North — the first maximal direction in the order N, E, S, W — while
the claimed tie-break (keep the current direction when maximal) returns
South. -/
theorem C5_counterexample :
    TS.nextGreenDirection c5waits .S = .N ∧
    specNextGreenTieKeepCurrent c5waits .S = .S ∧
    0 < c5waits .S ∧ Dir.N ≠ Dir.S := by
  decide

/-- Eight northbound cars filling every slot of direction N. -/
def cars8N : List TS.Car := (List.range 8).map fun i => TS.mkCar .N i 1

/-- Claim C6 counterexample: on a spawn frame with direction N drawn and all
eight N slots filled, `spawn` creates nothing — it never tries another
direction — although the car cap is not reached and direction E has every
slot free (its downward search would return slot 7). -/
theorem C6_counterexample :
    TS.spawn 50 ⟨.N, 1⟩ cars8N = cars8N ∧ cars8N.length < TS.MAX_CARS ∧
    TS.searchFrom (TS.filledSlots cars8N .E) TS.SLOTS_MAX = some 7 :=
  ⟨rfl, by decide, rfl⟩

/-- Helper: moving from distance `|a|` by a signed step of size `s ≤ |a|`
leaves distance `|a| - s`. -/
lemma abs_signed_step (a s : ℚ) (ha : a ≠ 0) (hs : s ≤ |a|) :
    |a - a / |a| * s| = |a| - s := by
  rcases lt_or_gt_of_ne ha with h | h
  · have habs : |a| = -a := abs_of_neg h
    have hq : a / |a| = -1 := by
      rw [habs, div_neg, div_self ha]
    rw [hq, habs]
    rw [habs] at hs
    have harith : a - -1 * s = -(-a - s) := by ring
    rw [harith, abs_neg, abs_of_nonneg (by linarith)]
  · have habs : |a| = a := abs_of_pos h
    have hq : a / |a| = 1 := by rw [habs, div_self ha]
    rw [hq, habs]
    rw [habs] at hs
    rw [one_mul, abs_of_nonneg (by linarith)]

/-- Claim C3 as amended: a non-crossed car at slot `i > 0` (front behind
the stop line, positive speed, not already sitting on the slot `i-1`
coordinate) changes position under `Car.update` if and only if its
direction's light shows GREEN — the source performs no occupancy check of
slot `i - 1` — and under a green light the move is strictly toward the
slot `i - 1` coordinate. -/
theorem C3_advance_iff_green (state : Dir → Light) (cur : Dir) (d : Dir) (s : ℕ) (sp p : ℚ)
    (h2 : TS.crossCondB ⟨d, s, false, sp, p⟩ = false) (h3 : 0 < s) (hsp : 0 < sp)
    (hne : p ≠ TS.slotAxis d (s - 1)) :
    ((TS.Car.update state cur ⟨d, s, false, sp, p⟩).pos ≠ p ↔ state d = Light.GREEN) ∧
    (state d = Light.GREEN →
      |TS.slotAxis d (s - 1) - (TS.Car.update state cur ⟨d, s, false, sp, p⟩).pos| <
        |TS.slotAxis d (s - 1) - p|) := by
  by_cases hg : state d = Light.GREEN
  · have h := ts_update_green state cur d s sp p h2 h3 hg
    have hdy : TS.slotAxis d (s - 1) - p ≠ 0 := sub_ne_zero.mpr fun hh => hne hh.symm
    have hdist : 0 < |TS.slotAxis d (s - 1) - p| := abs_pos.mpr hdy
    have hstep : 0 < min sp |TS.slotAxis d (s - 1) - p| := lt_min hsp hdist
    have hstep2 : min sp |TS.slotAxis d (s - 1) - p| ≤ |TS.slotAxis d (s - 1) - p| :=
      min_le_right _ _
    have hposeq : (TS.Car.update state cur ⟨d, s, false, sp, p⟩).pos
        = p + (TS.slotAxis d (s - 1) - p) / |TS.slotAxis d (s - 1) - p| *
            min sp |TS.slotAxis d (s - 1) - p| := by
      rw [h]; split <;> rfl
    have hmove : (TS.slotAxis d (s - 1) - p) / |TS.slotAxis d (s - 1) - p| *
        min sp |TS.slotAxis d (s - 1) - p| ≠ 0 :=
      mul_ne_zero (div_ne_zero hdy (ne_of_gt hdist)) (ne_of_gt hstep)
    refine ⟨⟨fun _ => hg, fun _ => ?_⟩, fun _ => ?_⟩
    · rw [hposeq]
      intro hh
      exact hmove (by linarith)
    · rw [hposeq]
      have harith : TS.slotAxis d (s - 1) -
          (p + (TS.slotAxis d (s - 1) - p) / |TS.slotAxis d (s - 1) - p| *
            min sp |TS.slotAxis d (s - 1) - p|)
          = (TS.slotAxis d (s - 1) - p) -
            (TS.slotAxis d (s - 1) - p) / |TS.slotAxis d (s - 1) - p| *
              min sp |TS.slotAxis d (s - 1) - p| := by ring
      rw [harith, abs_signed_step _ _ hdy hstep2]
      linarith
  · have h := ts_update_red state cur d s sp p h2 h3 hg
    rw [h]
    exact ⟨⟨fun hh => absurd rfl hh, fun hh => absurd hh hg⟩, fun hh => absurd hh hg⟩

/-- Witness for the amended C3 at `carB`'s exact state under a green North
light: the car advances (position changes) and gets strictly closer to the
slot-0 coordinate. -/
theorem C3_advance_iff_green_witness :
    ((TS.Car.update TS.sigGreenN.stateMap .N ⟨.N, 1, false, 6 / 5, 620⟩).pos ≠ 620 ↔
      TS.sigGreenN.stateMap .N = Light.GREEN) ∧
    (TS.sigGreenN.stateMap .N = Light.GREEN →
      |TS.slotAxis .N (1 - 1) - (TS.Car.update TS.sigGreenN.stateMap .N
          ⟨.N, 1, false, 6 / 5, 620⟩).pos| < |TS.slotAxis .N (1 - 1) - 620|) :=
  C3_advance_iff_green TS.sigGreenN.stateMap .N .N 1 (6 / 5) 620
    (crossCondB_north 1 (6 / 5) 620 (by norm_num [TS.STOP, TS.CENTER_Y, TS.canvasH, TS.STOP_GAP]))
    (by norm_num) (by norm_num) (by rw [slotAxisN0]; norm_num)

/-- Claim C4: the green duration granted at the end of yellow.  The source
formula `min 35 (10 + 1.5 w)` coincides with the specified
`clamp(base + factor w, base, max)` for every waiting count, takes the
three example values of the claim, and `Signal.tick` grants exactly
`FPS * clamp(...)` frames whenever yellow runs out. -/
theorem C4_green_duration :
    (∀ w : ℕ, TS.greenSeconds w = max 10 (min 35 (10 + 1.5 * (w : ℚ)))) ∧
    TS.greenSeconds 0 = 10 ∧ TS.greenSeconds 10 = 25 ∧ TS.greenSeconds 50 = 35 ∧
    (∀ (cars : List TS.Car) (s : TS.Sig), s.phase = Phase.yellow → s.framesLeft ≤ 1 →
      (TS.Sig.tick cars s).framesLeft = TS.FPS *
        max 10 (min 35 (10 + 1.5 *
          (TS.waitingCount cars (TS.nextGreenDirection (TS.waitingCount cars) s.dir) : ℚ)))) := by
  have hclamp : ∀ w : ℕ, TS.greenSeconds w = max 10 (min 35 (10 + 1.5 * (w : ℚ))) := by
    intro w
    have hw : (0 : ℚ) ≤ (w : ℚ) := Nat.cast_nonneg w
    have h10 : (10 : ℚ) ≤ min 35 (10 + 1.5 * (w : ℚ)) :=
      le_min (by norm_num) (by nlinarith)
    rw [TS.greenSeconds, max_eq_right h10]
  refine ⟨hclamp, ?_, ?_, ?_, ?_⟩
  · norm_num [TS.greenSeconds, min_def]
  · norm_num [TS.greenSeconds, min_def]
  · norm_num [TS.greenSeconds, min_def]
  · intro cars s hph hfl
    obtain ⟨sd, sph, st, sfl⟩ := s
    have hph' : sph = Phase.yellow := hph
    subst hph'
    have hfl' : sfl ≤ 1 := hfl
    unfold TS.Sig.tick
    rw [if_neg (by rintro ⟨hgr, -⟩; exact Phase.noConfusion hgr),
      if_pos ⟨rfl, by simpa using (by linarith : sfl - 1 ≤ 0)⟩]
    show TS.greenSeconds _ * TS.FPS = _
    rw [hclamp, mul_comm]

/-- Ten non-crossed eastbound cars. -/
def cars10E : List TS.Car := (List.range 10).map fun i => TS.mkCar .E i 1

/-- A signal state on the last yellow frame. -/
def sigYellowS : TS.Sig := { dir := .S, phase := .yellow, timer := 0, framesLeft := 1 }

/-- Witness for C4: from the last yellow frame with ten eastbound waiters,
the granted green is 25 s = 1500 frames. -/
theorem C4_green_duration_witness :
    (TS.Sig.tick cars10E sigYellowS).framesLeft = 1500 := by
  have h := C4_green_duration.2.2.2.2 cars10E sigYellowS rfl (by norm_num [sigYellowS])
  rw [h]
  have hcount : TS.waitingCount cars10E
      (TS.nextGreenDirection (TS.waitingCount cars10E) sigYellowS.dir) = 10 := by decide
  rw [hcount]
  norm_num [TS.FPS, min_def, max_def]

/-- Claim C5 as amended: when some direction has a nonzero waiting count,
the chosen direction is an argmax of the counts whose ties are broken by
the FIXED order N, E, S, W (first maximal direction wins); the current
direction is not preferred.  Stated as: the result's count is maximal, and
every direction strictly earlier in the N, E, S, W order has a strictly
smaller count. -/
theorem C5_next_green_argmax (waits : Dir → ℕ) (cur : Dir) (hw : ∃ d, 0 < waits d) :
    (∀ d, waits d ≤ waits (TS.nextGreenDirection waits cur)) ∧
    (∀ d, dirIdx d < dirIdx (TS.nextGreenDirection waits cur) →
      waits d < waits (TS.nextGreenDirection waits cur)) := by
  obtain ⟨d0, hd0⟩ := hw
  have hc1 : ((waits .N : ℤ) > (-1 : ℤ)) := by omega
  unfold TS.nextGreenDirection
  simp only [if_pos hc1]
  split_ifs with h2 h3 h4 h5 h6 h7 h8 h9 h10 h11 h12 h13 h14 h15 <;>
    first
      | (exfalso; revert hd0; cases d0 <;> omega)
      | (constructor <;> intro d <;> cases d <;>
          first | omega | (simp only [dirIdx]; omega))

/-- Waiting counts with a unique maximum at East. -/
def c5bwaits : Dir → ℕ
  | .N => 2 | .E => 5 | .S => 3 | .W => 0

/-- Witness for the amended C5: with counts N=2, E=5, S=3, W=0 and current
direction North, the code picks East and East's count dominates South's. -/
theorem C5_next_green_argmax_witness :
    TS.nextGreenDirection c5bwaits .N = Dir.E ∧
    c5bwaits .S ≤ c5bwaits (TS.nextGreenDirection c5bwaits .N) :=
  ⟨by decide, (C5_next_green_argmax c5bwaits .N ⟨.E, by decide⟩).1 .S⟩

/-- The downward slot search returns `none` exactly when every index below
`n` is filled. -/
lemma searchFrom_none_iff (filled : List ℕ) :
    ∀ n, TS.searchFrom filled n = none ↔ ∀ t, t < n → t ∈ filled := by
  intro n
  induction n with
  | zero => simp [TS.searchFrom]
  | succ n ih =>
    simp only [TS.searchFrom]
    by_cases h : n ∈ filled
    · rw [if_pos h, ih]
      constructor
      · intro hall t ht
        rcases Nat.lt_succ_iff_lt_or_eq.mp ht with h1 | h1
        · exact hall t h1
        · subst h1; exact h
      · intro hall t ht
        exact hall t (Nat.lt_succ_of_lt ht)
    · rw [if_neg h]
      constructor
      · intro hh
        exact absurd hh (by simp)
      · intro hall
        exact absurd (hall n (Nat.lt_succ_self n)) h

/-- The downward slot search finds the greatest free index. -/
lemma searchFrom_eq_some (filled : List ℕ) :
    ∀ (n s : ℕ), s < n → s ∉ filled → (∀ t, s < t → t < n → t ∈ filled) →
      TS.searchFrom filled n = some s := by
  intro n
  induction n with
  | zero => intro s hs _ _; omega
  | succ n ih =>
    intro s hs hfree hfill
    simp only [TS.searchFrom]
    by_cases h : n ∈ filled
    · rw [if_pos h]
      have hsn : s ≠ n := fun hh => hfree (hh ▸ h)
      exact ih s (by omega) hfree fun t ht1 ht2 => hfill t ht1 (by omega)
    · rw [if_neg h]
      have hsn : s = n := by
        by_contra hne
        exact h (hfill n (by omega) (Nat.lt_succ_self n))
      rw [hsn]

/-- Claim C6 as amended: on a spawn frame below the car cap the spawner
consults ONLY the single drawn direction: if every slot of that direction
is filled, no vehicle is created that tick (even when other directions have
free slots); otherwise the new car is appended at the greatest free slot
index of that direction (the farthest from the stop line). -/
theorem C6_spawn_single_direction (frame : ℕ) (draw : TS.Draw) (cars : List TS.Car)
    (h1 : frame % TS.SPAWN_INTERVAL = 0) (h2 : cars.length < TS.MAX_CARS) :
    ((∀ s, s < TS.SLOTS_MAX → s ∈ TS.filledSlots cars draw.dir) →
      TS.spawn frame draw cars = cars) ∧
    (∀ s, s < TS.SLOTS_MAX → s ∉ TS.filledSlots cars draw.dir →
      (∀ t, s < t → t < TS.SLOTS_MAX → t ∈ TS.filledSlots cars draw.dir) →
      TS.spawn frame draw cars = cars ++ [TS.mkCar draw.dir s draw.speed]) := by
  constructor
  · intro hfull
    unfold TS.spawn
    rw [if_neg (by simp [h1]), if_neg (not_le.mpr h2),
      (searchFrom_none_iff _ _).mpr fun t ht => hfull t ht]
  · intro s hs hfree hfill
    unfold TS.spawn
    rw [if_neg (by simp [h1]), if_neg (not_le.mpr h2),
      searchFrom_eq_some _ _ s hs hfree hfill]

/-- Witness for the amended C6: on an empty road a draw of direction N
spawns exactly one car in the farthest slot, index 7. -/
theorem C6_spawn_single_direction_witness :
    TS.spawn 50 ⟨.N, 1⟩ [] = [] ++ [TS.mkCar .N 7 1] :=
  (C6_spawn_single_direction 50 ⟨.N, 1⟩ [] (by decide) (by decide)).2 7 (by decide)
    (by simp [TS.filledSlots])
    (by
      intro t ht1 ht2
      simp only [TS.SLOTS_MAX] at ht2
      exact absurd ht2 (by omega))

/-- Straight-through movement does not touch the crossed flag. -/
lemma ts_moveForward_crossed (c : TS.Car) : (TS.Car.moveForward c).crossed = c.crossed := by
  obtain ⟨d, s, cr, sp, p⟩ := c
  cases d <;> rfl

/-- Lane alignment does not touch the crossed flag. -/
lemma v1_laneAlign_crossed (c : V1.Vehicle) : (V1.laneAlign c).crossed = c.crossed := by
  obtain ⟨d, x, y, w, h, v, dv, cr, t, pp, tp⟩ := c
  cases d <;> rfl

/-- Straight movement does not touch the crossed flag. -/
lemma v1_moveDir_crossed (c : V1.Vehicle) : (V1.moveDir c).crossed = c.crossed := by
  obtain ⟨d, x, y, w, h, v, dv, cr, t, pp, tp⟩ := c
  cases d <;> rfl

/-- Bezier movement does not touch the crossed flag. -/
lemma v1_posAlongTurn_crossed (c : V1.Vehicle) (p : V1.TurnPath) (t : ℚ) :
    (V1.posAlongTurn c p t).crossed = c.crossed := rfl

/-- Lane alignment moves only the perpendicular coordinate, so the
crossed-marking condition is unchanged by it. -/
lemma v1_crossCondB_laneAlign (c : V1.Vehicle) :
    V1.crossCondB (V1.laneAlign c) = V1.crossCondB c := by
  obtain ⟨d, x, y, w, h, v, dv, cr, t, pp, tp⟩ := c
  cases d <;> rfl

/-- The crossed-marking block sets the flag to the disjunction of its old
value and the stop-line condition. -/
lemma v1_markCrossed_crossed (c : V1.Vehicle) :
    (V1.markCrossed c).crossed = (c.crossed || V1.crossCondB c) := by
  unfold V1.markCrossed
  by_cases hcr : c.crossed = true
  · simp [hcr]
  · have hcr' : c.crossed = false := by simpa using hcr
    simp only [hcr', Bool.false_eq_true, if_false, Bool.false_or]
    by_cases hcc : V1.crossCondB c = true
    · simp only [hcc, if_true]
      split_ifs <;> rfl
    · have hcc' : V1.crossCondB c = false := by simpa using hcc
      simp [hcc', hcr']

/-- The movement half of `step()` never touches the crossed flag. -/
lemma v1_stepMove_crossed (sig : V1.SigV) (tc : Bool) (c : V1.Vehicle) :
    (V1.stepMove sig tc c).crossed = c.crossed := by
  unfold V1.stepMove
  split_ifs with h1
  · cases hp : c.turnPath with
    | none => simp [hp]
    | some p =>
      simp only [hp]
      split_ifs with h2
      · simp [v1_posAlongTurn_crossed]
      · simp [v1_posAlongTurn_crossed]
  · dsimp only
    split_ifs with h2
    · simp [v1_moveDir_crossed]
    · rfl

/-- Claim C7: in both variants the per-tick update computes the new crossed
flag as (old crossed OR front-past-stop-line), evaluated on the pre-move
position: the flag is monotone (once true it stays true, since the
disjunction absorbs it) and a non-crossed vehicle becomes crossed exactly
when its leading edge has passed the stop line of its direction. -/
theorem C7_crossed_monotone :
    (∀ (state : Dir → Light) (cur : Dir) (c : TS.Car),
      (TS.Car.update state cur c).crossed = (c.crossed || TS.crossCondB c)) ∧
    (∀ (sig : V1.SigV) (others : List V1.Vehicle) (c : V1.Vehicle),
      (V1.step sig others c).crossed = (c.crossed || V1.crossCondB c)) := by
  constructor
  · intro state cur c
    unfold TS.Car.update
    by_cases hcr : c.crossed = true
    · simp [hcr, ts_moveForward_crossed]
    · have hcr' : c.crossed = false := by simpa using hcr
      simp only [hcr', Bool.false_eq_true, if_false, Bool.false_or]
      by_cases hcc : TS.crossCondB c = true
      · simp [hcc, ts_moveForward_crossed]
      · have hcc' : TS.crossCondB c = false := by simpa using hcc
        simp only [hcc', Bool.false_eq_true, if_false]
        split_ifs <;> simp [hcc']
  · intro sig others c
    unfold V1.step
    rw [v1_stepMove_crossed, v1_markCrossed_crossed]
    split_ifs with ht
    · rfl
    · rw [v1_laneAlign_crossed, v1_crossCondB_laneAlign]

/-- Speed after `n` consecutive blocked ticks of the velocity-control block
(the first branch of `speedStep`; the other two inputs are irrelevant on a
blocked tick). -/
def blockedIter (n : ℕ) (v : ℚ) : ℚ := (fun u => V1.speedStep true false 0 u)^[n] v

/-- Speed after `n` consecutive allowed ticks from standstill with desired
speed `d`. -/
def allowedIter (d : ℚ) (n : ℕ) : ℚ := (fun u => V1.speedStep false true d u)^[n] 0

/-- One more blocked tick brakes by `decelRate`, clamped at zero. -/
lemma blockedIter_succ (n : ℕ) (v : ℚ) :
    blockedIter (n + 1) v = max 0 (blockedIter n v - V1.decelRate) := by
  rw [blockedIter, Function.iterate_succ_apply', ← blockedIter]
  rfl

/-- Closed form of repeated braking. -/
lemma blockedIter_closed (v : ℚ) (hv : 0 ≤ v) : ∀ n : ℕ,
    blockedIter n v = max 0 (v - n * V1.decelRate) := by
  have hd : (0 : ℚ) < V1.decelRate := by norm_num [V1.decelRate]
  intro n
  induction n with
  | zero => simp [blockedIter, max_eq_right hv]
  | succ n ih =>
    rw [blockedIter_succ, ih]
    rcases le_or_lt (v - n * V1.decelRate) 0 with h | h
    · rw [max_eq_left h, max_eq_left (by linarith), max_eq_left (by push_cast; nlinarith)]
    · rw [max_eq_right (le_of_lt h)]
      congr 1
      push_cast
      ring

/-- One more allowed tick applies the acceleration branch. -/
lemma allowedIter_succ (d : ℚ) (n : ℕ) :
    allowedIter d (n + 1) = V1.speedStep false true d (allowedIter d n) := by
  rw [allowedIter, Function.iterate_succ_apply', ← allowedIter]

/-- Closed form of repeated acceleration from standstill. -/
lemma allowedIter_closed (d : ℚ) (hd : 0 ≤ d) : ∀ n : ℕ,
    allowedIter d n = min d (n * V1.accelRate) := by
  have ha : (0 : ℚ) < V1.accelRate := by norm_num [V1.accelRate]
  intro n
  induction n with
  | zero => simp [allowedIter, min_eq_right hd]
  | succ n ih =>
    rw [allowedIter_succ, ih]
    unfold V1.speedStep
    simp only [Bool.false_eq_true, if_false, if_true]
    rcases lt_or_le ((n : ℚ) * V1.accelRate) d with h | h
    · rw [min_eq_right (le_of_lt h), if_pos h]
      congr 1
      push_cast
      ring
    · rw [min_eq_left h, if_neg (lt_irrefl d), min_eq_left (by push_cast; nlinarith)]
      rw [sub_zero, max_self]

/-- Claim C8: the velocity-control block of `Vehicle.step()` satisfies the
claimed clamps. A blocked tick yields exactly `max 0 (v - decelRate)`
whatever the other inputs; an allowed tick below the desired speed yields
exactly `min desired (v + accelRate)`; repeated blocked ticks follow the
closed form `max 0 (v - n*decelRate)`, are monotonically non-increasing,
never negative, and reach exactly 0; repeated allowed ticks from 0 follow
`min desired (n*accelRate)`, never exceed the desired speed, are monotone,
and reach exactly the desired speed. -/
theorem C8_speed_clamps :
    (∀ (al : Bool) (d v : ℚ), V1.speedStep true al d v = max 0 (v - V1.decelRate)) ∧
    (∀ d v : ℚ, v < d → V1.speedStep false true d v = min d (v + V1.accelRate)) ∧
    (∀ v : ℚ, 0 ≤ v → ∀ n : ℕ, blockedIter n v = max 0 (v - n * V1.decelRate)) ∧
    (∀ v : ℚ, 0 ≤ v → ∀ n : ℕ, blockedIter (n + 1) v ≤ blockedIter n v ∧ 0 ≤ blockedIter n v) ∧
    (∀ v : ℚ, 0 ≤ v → ∃ n : ℕ, blockedIter n v = 0) ∧
    (∀ d : ℚ, 0 ≤ d → ∀ n : ℕ, allowedIter d n = min d (n * V1.accelRate)) ∧
    (∀ d : ℚ, 0 ≤ d → ∀ n : ℕ, allowedIter d n ≤ d ∧ allowedIter d n ≤ allowedIter d (n + 1)) ∧
    (∀ d : ℚ, 0 ≤ d → ∃ n : ℕ, allowedIter d n = d) := by
  have hd : (0 : ℚ) < V1.decelRate := by norm_num [V1.decelRate]
  have ha : (0 : ℚ) < V1.accelRate := by norm_num [V1.accelRate]
  refine ⟨fun al d v => rfl, ?_, blockedIter_closed, ?_, ?_, allowedIter_closed, ?_, ?_⟩
  · intro d v hlt
    unfold V1.speedStep
    simp only [Bool.false_eq_true, if_false, if_true]
    rw [if_pos hlt]
  · intro v hv n
    rw [blockedIter_closed v hv, blockedIter_closed v hv]
    constructor
    · refine max_le_max le_rfl ?_
      push_cast
      nlinarith
    · exact le_max_left _ _
  · intro v hv
    obtain ⟨n, hn⟩ := exists_nat_ge (v / V1.decelRate)
    refine ⟨n, ?_⟩
    rw [blockedIter_closed v hv]
    have : v ≤ n * V1.decelRate := by
      rw [div_le_iff₀ hd] at hn
      linarith
    exact max_eq_left (by linarith)
  · intro d hdm n
    rw [allowedIter_closed d hdm, allowedIter_closed d hdm]
    refine ⟨min_le_left _ _, min_le_min le_rfl ?_⟩
    push_cast
    nlinarith
  · intro d hdm
    obtain ⟨n, hn⟩ := exists_nat_ge (d / V1.accelRate)
    refine ⟨n, ?_⟩
    rw [allowedIter_closed d hdm]
    have : d ≤ n * V1.accelRate := by
      rw [div_le_iff₀ ha] at hn
      linarith
    exact min_eq_left this

/-- Witness for C8 at concrete speeds: one blocked tick from speed 1, one
allowed tick from speed 1/2 toward desired 1, 20 blocked ticks from speed 1
(which is exactly 0), and 50 allowed ticks toward desired 1 (which is
exactly 1). -/
theorem C8_speed_clamps_witness :
    V1.speedStep true false 1 1 = max 0 (1 - V1.decelRate) ∧
    V1.speedStep false true 1 (1 / 2) = min 1 (1 / 2 + V1.accelRate) ∧
    blockedIter 20 1 = max 0 (1 - 20 * V1.decelRate) ∧
    allowedIter 1 50 = min 1 (50 * V1.accelRate) :=
  ⟨C8_speed_clamps.1 false 1 1,
   C8_speed_clamps.2.1 1 (1 / 2) (by norm_num),
   by rw [C8_speed_clamps.2.2.1 1 (by norm_num) 20]; norm_num,
   by rw [C8_speed_clamps.2.2.2.2.2.1 1 (by norm_num) 50]; norm_num⟩

/-- Car spawned by the Pygame-clone variant on a North draw with speed
3/2 ∈ [1.2, 1.8) and spawn offset 110 ∈ 100..179. -/
def p0carN : P0.Car := P0.mkCar .N (3 / 2) 110

/-- The same draw with direction East instead. -/
def p0carE : P0.Car := P0.mkCar .E (3 / 2) 110

/-- One signal tick from the constructor state: still green South, one
frame consumed. -/
lemma p0_tick_sigGreenS (cars : List P0.Car) :
    P0.Signal.tick cars P0.sigGreenS =
      { dir := .S, phase := .green, timer := 1, greenFrames := P0.BASE_GREEN_FRAMES,
        timerFramesLeft := 899 } := by
  unfold P0.Signal.tick P0.sigGreenS
  dsimp only
  rw [if_neg (by norm_num [P0.BASE_GREEN_FRAMES]), if_neg (by simp)]
  norm_num [P0.BASE_GREEN_FRAMES]

/-- `move` leaves a car in place when it is lane-locked, unobstructed,
non-crossed, still before the stop line, and not of the green direction. -/
lemma p0_move_held (state : Dir → Light) (cur : Dir) (others : List P0.Car) (c : P0.Car)
    (hl : P0.laneLock c = c) (hg : P0.gap others c = none)
    (hcross : P0.crossCondB c = false) (hcr : c.crossed = false)
    (hd : c.direction ≠ cur) :
    P0.move state cur others c = c := by
  unfold P0.move
  dsimp only
  rw [hl, hg]
  dsimp only
  have hmark :
      (if c.crossed = false ∧ P0.crossCondB c = true then { c with crossed := true } else c)
        = c := by
    rw [hcross]
    simp
  rw [hmark]
  split_ifs with h
  · exfalso
    simp only [Bool.and_eq_true, Bool.or_eq_true, decide_eq_true_eq] at h
    rcases h.1 with h1 | h1
    · rw [hcr] at h1
      exact Bool.noConfusion h1
    · exact hd h1.2
  · rfl

/-- The downward car pass on a one-car array that neither moves nor
leaves the screen. -/
lemma p0_carsLoop_singleton (state : Dir → Light) (cur : Dir) (c : P0.Car)
    (hm : P0.move state cur [] c = c) (hoff : c.offscreen = false) :
    P0.carsLoop state cur [c] = [c] := by
  show P0.carsLoopAux state cur [c].length [c] = [c]
  have h1 : P0.carsLoopAux state cur 1 [c] =
      P0.carsLoopAux state cur 0
        (if (P0.move state cur [] c).offscreen then
          ([c].set 0 (P0.move state cur [] c)).eraseIdx 0
        else [c].set 0 (P0.move state cur [] c)) := rfl
  rw [List.length_singleton, h1, hm, hoff]
  rfl

/-- The North-draw car does not satisfy the crossed condition: its front
sits at y = 810, far below the stop line 490. -/
lemma p0_crossCond_carN : P0.crossCondB p0carN = false := by
  show decide (p0carN.y < P0.STOP_LINES .N) = false
  exact decide_eq_false (by
    norm_num [p0carN, P0.mkCar, P0.initY, P0.SCREEN_HEIGHT, P0.STOP_LINES,
      P0.CENTER_Y, P0.STOP_GAP])

/-- The East-draw car does not satisfy the crossed condition: its front
sits at x = -110, far left of the stop line 360. -/
lemma p0_crossCond_carE : P0.crossCondB p0carE = false := by
  show decide (p0carE.x + p0carE.w > P0.STOP_LINES .E) = false
  exact decide_eq_false (by
    norm_num [p0carE, P0.mkCar, P0.initX, P0.initW, P0.CAR_LENGTH, P0.STOP_LINES,
      P0.CENTER_X, P0.STOP_GAP])

/-- The North-draw car is on screen (y = 810 ≤ 820). -/
lemma p0_offscreen_carN : p0carN.offscreen = false := by
  unfold P0.Car.offscreen
  exact decide_eq_false (by
    push_neg
    norm_num [p0carN, P0.mkCar, P0.initW, P0.initH, P0.initX, P0.initY,
      P0.SCREEN_WIDTH, P0.SCREEN_HEIGHT, P0.CAR_WIDTH, P0.CAR_LENGTH,
      P0.LANE_POS, P0.CENTER_X, P0.LANE_SHIFT])

/-- The East-draw car is on screen (x + w = -110 ≥ -120). -/
lemma p0_offscreen_carE : p0carE.offscreen = false := by
  unfold P0.Car.offscreen
  exact decide_eq_false (by
    push_neg
    norm_num [p0carE, P0.mkCar, P0.initW, P0.initH, P0.initX, P0.initY,
      P0.SCREEN_WIDTH, P0.SCREEN_HEIGHT, P0.CAR_WIDTH, P0.CAR_LENGTH,
      P0.LANE_POS, P0.CENTER_Y, P0.LANE_SHIFT])

/-- Spawn frame 50 from the initial signal with a North draw: the tick puts
exactly the one new northbound car into the array. -/
lemma p0_run50_N :
    P0.updateAndDraw ⟨.N, 3 / 2, 110⟩ ⟨49, P0.sigGreenS, []⟩ =
      ⟨50, ⟨.S, .green, 1, P0.BASE_GREEN_FRAMES, 899⟩, [p0carN]⟩ := by
  unfold P0.updateAndDraw
  dsimp only
  rw [p0_tick_sigGreenS]
  rw [show P0.trySpawn (49 + 1) ⟨.N, 3 / 2, 110⟩ [] = [p0carN] from rfl]
  rw [p0_carsLoop_singleton _ _ _
    (p0_move_held _ _ _ _ rfl rfl p0_crossCond_carN rfl (by decide)) p0_offscreen_carN]

/-- The same spawn frame with an East draw instead: one eastbound car. -/
lemma p0_run50_E :
    P0.updateAndDraw ⟨.E, 3 / 2, 110⟩ ⟨49, P0.sigGreenS, []⟩ =
      ⟨50, ⟨.S, .green, 1, P0.BASE_GREEN_FRAMES, 899⟩, [p0carE]⟩ := by
  unfold P0.updateAndDraw
  dsimp only
  rw [p0_tick_sigGreenS]
  rw [show P0.trySpawn (49 + 1) ⟨.E, 3 / 2, 110⟩ [] = [p0carE] from rfl]
  rw [p0_carsLoop_singleton _ _ _
    (p0_move_held _ _ _ _ rfl rfl p0_crossCond_carE rfl (by decide)) p0_offscreen_carE]

/-- Counterexample to C9 as stated: in the runnable Pygame-clone variant,
two executions of `updateAndDraw` from the IDENTICAL simulation state
(frame 49, the constructor signal, no cars) produce different successor
states, because the spawner's `Math.random` draws — which are not part of
the simulation state — differ: one run spawns a northbound car, the other
an eastbound one. -/
theorem C9_counterexample :
    P0.updateAndDraw ⟨.N, 3 / 2, 110⟩ ⟨49, P0.sigGreenS, []⟩ ≠
      P0.updateAndDraw ⟨.E, 3 / 2, 110⟩ ⟨49, P0.sigGreenS, []⟩ := by
  rw [p0_run50_N, p0_run50_E]
  intro h
  have h2 := congrArg (fun st : P0.SimP => st.cars.map P0.Car.direction) h
  simp only [List.map_cons, List.map_nil] at h2
  exact absurd h2 (by decide)

/-- `trySpawn` ignores its draws whenever its guard fails (off-interval
frame, or car cap reached). -/
lemma p0_trySpawn_guard (fc : ℕ) (d1 d2 : P0.Draw) (cars : List P0.Car)
    (h : fc % P0.SPAWN_INTERVAL ≠ 0 ∨ P0.MAX_CARS ≤ cars.length) :
    P0.trySpawn fc d1 cars = P0.trySpawn fc d2 cars := by
  unfold P0.trySpawn
  rcases h with h | h
  · rw [if_pos h, if_pos h]
  · split_ifs <;> rfl

/-- Claim C9 as amended. In the slot variant the per-tick transition is
trivially draw-independent: `loop()` dereferences `signal.current()`, a
method the slot variant's `Signal` class does not define, so every frame
throws a TypeError at that line — before `spawn()` runs — and the faulting
transition never consumes a random draw. In the runnable Pygame-clone
variant the transition is a deterministic function of the state TOGETHER
WITH the tick's random draws; the draws are consumed only by the spawner,
so on any tick where the spawn guard fails — the incremented frame counter
is not a multiple of the spawn interval, or the car cap is reached — the
successor state does not depend on the draws at all. -/
theorem C9_deterministic_modulo_draws :
    (∀ (st : TS.SimState) (d1 d2 : TS.Draw), TS.simTick d1 st = TS.simTick d2 st) ∧
    (∀ (st : P0.SimP) (d1 d2 : P0.Draw),
      (st.frameCount + 1) % P0.SPAWN_INTERVAL ≠ 0 ∨ P0.MAX_CARS ≤ st.cars.length →
      P0.updateAndDraw d1 st = P0.updateAndDraw d2 st) := by
  constructor
  · intro st d1 d2
    rfl
  · intro st d1 d2 h
    unfold P0.updateAndDraw
    dsimp only
    rw [p0_trySpawn_guard (st.frameCount + 1) d1 d2 st.cars h]

/-- Witness for the amended C9: two slot-variant ticks with different draws
fault identically, and from frame 0 of the Pygame-clone variant (the next
frame, 1, is not a spawn frame) two ticks with different draws coincide. -/
theorem C9_deterministic_modulo_draws_witness :
    TS.simTick ⟨.N, 1⟩ ⟨0, TS.sigGreenN, []⟩ = TS.simTick ⟨.E, 9 / 10⟩ ⟨0, TS.sigGreenN, []⟩ ∧
    P0.updateAndDraw ⟨.N, 3 / 2, 110⟩ ⟨0, P0.sigGreenS, []⟩ =
      P0.updateAndDraw ⟨.E, 13 / 10, 150⟩ ⟨0, P0.sigGreenS, []⟩ :=
  ⟨C9_deterministic_modulo_draws.1 ⟨0, TS.sigGreenN, []⟩ ⟨.N, 1⟩ ⟨.E, 9 / 10⟩,
   C9_deterministic_modulo_draws.2 ⟨0, P0.sigGreenS, []⟩ ⟨.N, 3 / 2, 110⟩ ⟨.E, 13 / 10, 150⟩
    (Or.inl (by decide))⟩

/-- With an empty accumulator the better-gap test is just non-negativity. -/
lemma betterGap_none (d : ℚ) : V1.betterGap none d = decide (0 ≤ d) := by
  simp [V1.betterGap]

/-- One fold step keeps the accumulator `none` exactly when the examined
vehicle is not a qualifying candidate (wrong direction, not ahead, or at a
negative bumper distance). -/
lemma gapFold_none_left (c o : V1.Vehicle) :
    V1.gapFold c none o = none ↔
      ∀ d : ℚ, o.dir = c.dir → V1.aheadDist c o = some d → d < 0 := by
  unfold V1.gapFold
  by_cases hdir : o.dir = c.dir
  · rw [if_pos hdir]
    cases had : V1.aheadDist c o with
    | none =>
      dsimp only
      simp only [iff_true_intro rfl, true_iff]
      intro d _ hsome
      exact Option.noConfusion hsome
    | some d =>
      dsimp only
      rw [betterGap_none]
      by_cases hd : (0 : ℚ) ≤ d
      · rw [if_pos (by simp [hd])]
        constructor
        · intro hh
          exact Option.noConfusion hh
        · intro hall
          exact absurd (hall d hdir rfl) (not_lt.mpr hd)
      · rw [if_neg (by simp [hd])]
        constructor
        · intro _ d' _ hsome
          injection hsome with hh
          subst hh
          exact not_le.mp hd
        · intro _
          rfl
  · rw [if_neg hdir]
    constructor
    · intro _ d hdir' _
      exact absurd hdir' hdir
    · intro _
      rfl

/-- A `some` accumulator can never fall back to `none`. -/
lemma gapFold_some_ne_none (c o : V1.Vehicle) (m : ℚ) :
    V1.gapFold c (some m) o ≠ none := by
  unfold V1.gapFold
  by_cases hdir : o.dir = c.dir
  · rw [if_pos hdir]
    cases had : V1.aheadDist c o with
    | none => exact fun hh => Option.noConfusion hh
    | some d =>
      dsimp only
      split_ifs <;> exact fun hh => Option.noConfusion hh
  · rw [if_neg hdir]
    exact fun hh => Option.noConfusion hh

/-- The fold returns `none` exactly when the accumulator started `none` and
no listed vehicle qualifies. -/
lemma gap_foldl_none (c : V1.Vehicle) : ∀ (l : List V1.Vehicle) (acc : Option ℚ),
    l.foldl (V1.gapFold c) acc = none ↔
      acc = none ∧ ∀ o ∈ l, ∀ d : ℚ, o.dir = c.dir → V1.aheadDist c o = some d → d < 0 := by
  intro l
  induction l with
  | nil =>
    intro acc
    simp
  | cons o l ih =>
    intro acc
    rw [List.foldl_cons, ih]
    cases acc with
    | none =>
      rw [gapFold_none_left]
      constructor
      · rintro ⟨h1, h2⟩
        exact ⟨rfl, by
          intro o' ho'
          rcases List.mem_cons.mp ho' with h | h
          · subst h; exact h1
          · exact h2 o' h⟩
      · rintro ⟨-, hall⟩
        exact ⟨hall o (List.mem_cons_self o l), fun o' ho' => hall o' (List.mem_cons_of_mem o ho')⟩
    | some m =>
      constructor
      · rintro ⟨h1, -⟩
        exact absurd h1 (gapFold_some_ne_none c o m)
      · rintro ⟨h1, -⟩
        exact Option.noConfusion h1

/-- Where a `some` result of one fold step can come from. -/
lemma gapFold_origin (c o : V1.Vehicle) (acc : Option ℚ) (m : ℚ)
    (h : V1.gapFold c acc o = some m) :
    acc = some m ∨ (0 ≤ m ∧ o.dir = c.dir ∧ V1.aheadDist c o = some m) := by
  unfold V1.gapFold at h
  by_cases hdir : o.dir = c.dir
  · rw [if_pos hdir] at h
    cases had : V1.aheadDist c o with
    | none =>
      rw [had] at h
      exact Or.inl h
    | some d =>
      rw [had] at h
      dsimp only at h
      by_cases hb : V1.betterGap acc d = true
      · rw [if_pos hb] at h
        injection h with h
        subst h
        refine Or.inr ⟨?_, hdir, rfl⟩
        unfold V1.betterGap at hb
        simp only [Bool.and_eq_true, decide_eq_true_eq] at hb
        exact hb.1
      · rw [if_neg hb] at h
        exact Or.inl h
  · rw [if_neg hdir] at h
    exact Or.inl h

/-- One fold step never increases the accumulated minimum. -/
lemma gapFold_le_acc (c o : V1.Vehicle) (acc : Option ℚ) (m m0 : ℚ)
    (h : V1.gapFold c acc o = some m) (ha : acc = some m0) : m ≤ m0 := by
  subst ha
  unfold V1.gapFold at h
  by_cases hdir : o.dir = c.dir
  · rw [if_pos hdir] at h
    cases had : V1.aheadDist c o with
    | none =>
      rw [had] at h
      injection h with h
      exact le_of_eq h.symm
    | some d =>
      rw [had] at h
      dsimp only at h
      by_cases hb : V1.betterGap (some m0) d = true
      · rw [if_pos hb] at h
        injection h with h
        subst h
        unfold V1.betterGap at hb
        simp only [Bool.and_eq_true, decide_eq_true_eq] at hb
        exact le_of_lt hb.2
      · rw [if_neg hb] at h
        injection h with h
        exact le_of_eq h.symm
  · rw [if_neg hdir] at h
    injection h with h
    exact le_of_eq h.symm

/-- After a fold step over a qualifying vehicle the accumulator is a `some`
value at most that vehicle's distance. -/
lemma gapFold_qual (c o : V1.Vehicle) (acc : Option ℚ) (d : ℚ)
    (hdir : o.dir = c.dir) (had : V1.aheadDist c o = some d) (hd : 0 ≤ d) :
    ∃ m : ℚ, V1.gapFold c acc o = some m ∧ m ≤ d := by
  unfold V1.gapFold
  rw [if_pos hdir, had]
  dsimp only
  by_cases hb : V1.betterGap acc d = true
  · exact ⟨d, by rw [if_pos hb], le_rfl⟩
  · rw [if_neg hb]
    cases acc with
    | none =>
      exact absurd (by rw [betterGap_none]; simpa using hd) hb
    | some m =>
      refine ⟨m, rfl, ?_⟩
      have hb' : V1.betterGap (some m) d = false := by
        simpa using hb
      unfold V1.betterGap at hb'
      simp only [Bool.and_eq_false_iff, decide_eq_false_iff_not] at hb'
      rcases hb' with hb' | hb'
      · exact absurd hd hb'
      · exact not_lt.mp hb'

/-- The fold computes a lower bound and a member: a `some g` result is a
distance of some listed qualifying vehicle (or the initial accumulator),
is at most the initial accumulator, and is at most every qualifying
distance in the list. -/
lemma gap_foldl_some (c : V1.Vehicle) : ∀ (l : List V1.Vehicle) (acc : Option ℚ) (g : ℚ),
    l.foldl (V1.gapFold c) acc = some g →
      (acc = some g ∨ (0 ≤ g ∧ ∃ o ∈ l, o.dir = c.dir ∧ V1.aheadDist c o = some g)) ∧
      (∀ m : ℚ, acc = some m → g ≤ m) ∧
      (∀ o ∈ l, ∀ d : ℚ, o.dir = c.dir → V1.aheadDist c o = some d → 0 ≤ d → g ≤ d) := by
  intro l
  induction l with
  | nil =>
    intro acc g h
    simp only [List.foldl_nil] at h
    refine ⟨Or.inl h, ?_, ?_⟩
    · intro m hm
      rw [h] at hm
      injection hm with hm
      exact le_of_eq hm
    · intro o ho
      exact absurd ho (List.not_mem_nil o)
  | cons o l ih =>
    intro acc g h
    rw [List.foldl_cons] at h
    obtain ⟨ih1, ih2, ih3⟩ := ih (V1.gapFold c acc o) g h
    refine ⟨?_, ?_, ?_⟩
    · rcases ih1 with h1 | ⟨hge, o', ho', hdir', had'⟩
      · rcases gapFold_origin c o acc g h1 with h2 | ⟨hge, hdir, had⟩
        · exact Or.inl h2
        · exact Or.inr ⟨hge, o, List.mem_cons_self o l, hdir, had⟩
      · exact Or.inr ⟨hge, o', List.mem_cons_of_mem o ho', hdir', had'⟩
    · intro m0 hm0
      rcases hacc : V1.gapFold c acc o with _ | m
      · exact absurd hacc (by rw [hm0]; exact gapFold_some_ne_none c o m0)
      · exact le_trans (ih2 m hacc) (gapFold_le_acc c o acc m m0 hacc hm0)
    · intro o' ho' d hdir' had' hd
      rcases List.mem_cons.mp ho' with hh | hh
      · subst hh
        obtain ⟨m, hm, hmd⟩ := gapFold_qual c o' acc d hdir' had' hd
        exact le_trans (ih2 m hm) hmd
      · exact ih3 o' hh d hdir' had' hd

/-- Claim C10: `gapToAhead` returns `none` exactly when no same-direction
vehicle ahead has a non-negative bumper distance; a `some g` result is the
minimum of the non-negative bumper distances of same-direction vehicles
ahead (it is one of them and a lower bound on all of them); and a vehicle
at negative (overlapping) distance is simply excluded, so adding such a
vehicle changes neither the gap nor the `tooClose` braking trigger. -/
theorem C10_gap_minimum (c : V1.Vehicle) (others : List V1.Vehicle) :
    (V1.gapToAhead others c = none ↔
      ∀ o ∈ others, ∀ d : ℚ, o.dir = c.dir → V1.aheadDist c o = some d → d < 0) ∧
    (∀ g : ℚ, V1.gapToAhead others c = some g →
      0 ≤ g ∧ (∃ o ∈ others, o.dir = c.dir ∧ V1.aheadDist c o = some g) ∧
      ∀ o ∈ others, ∀ d : ℚ, o.dir = c.dir → V1.aheadDist c o = some d → 0 ≤ d → g ≤ d) ∧
    (∀ o : V1.Vehicle, (∀ d : ℚ, o.dir = c.dir → V1.aheadDist c o = some d → d < 0) →
      V1.gapToAhead (o :: others) c = V1.gapToAhead others c ∧
      V1.tooCloseB (o :: others) c = V1.tooCloseB others c) := by
  refine ⟨?_, ?_, ?_⟩
  · rw [V1.gapToAhead, gap_foldl_none]
    simp
  · intro g hg
    obtain ⟨h1, -, h3⟩ := gap_foldl_some c others none g hg
    rcases h1 with h1 | ⟨hge, o, ho, hdir, had⟩
    · exact Option.noConfusion h1
    · exact ⟨hge, ⟨o, ho, hdir, had⟩, h3⟩
  · intro o ho
    have hgap : V1.gapToAhead (o :: others) c = V1.gapToAhead others c := by
      show (o :: others).foldl (V1.gapFold c) none = others.foldl (V1.gapFold c) none
      rw [List.foldl_cons, (gapFold_none_left c o).mpr ho]
    exact ⟨hgap, by unfold V1.tooCloseB; rw [hgap]⟩

/-- A straight northbound test vehicle at y = 300 with a car footprint. -/
def vehC : V1.Vehicle :=
  { dir := .N, x := 437, y := 300, w := 36, h := 18, v := 0, desiredV := 1,
    crossed := false, turn := .straight, pathProgress := 0, turnPath := none }

/-- An overlapping leader of `vehC`: ahead by 10 px but 18 px tall, so the
bumper distance is -8. -/
def vehOverlap : V1.Vehicle := { vehC with y := 290 }

/-- A clear leader of `vehC`, 100 px ahead (bumper distance 82). -/
def vehFar : V1.Vehicle := { vehC with y := 200 }

/-- Witness for C10: inserting the overlapping leader changes neither the
computed gap nor the braking trigger of `vehC`. -/
theorem C10_gap_minimum_witness :
    V1.gapToAhead [vehOverlap, vehFar] vehC = V1.gapToAhead [vehFar] vehC ∧
    V1.tooCloseB [vehOverlap, vehFar] vehC = V1.tooCloseB [vehFar] vehC :=
  (C10_gap_minimum vehC [vehFar]).2.2 vehOverlap (by
    intro d _ hsome
    have hval : V1.aheadDist vehC vehOverlap = some (-8) := by
      unfold V1.aheadDist vehC vehOverlap
      rw [if_pos (by norm_num)]
      norm_num [vehC]
    rw [hval] at hsome
    injection hsome with hh
    rw [← hh]
    norm_num)
